import Mathlib

/-!
Verification development for the memoryatlas repository.

The Python sources under `src/memoryatlas/` are shallowly embedded below:

* REAL columns (`duration_sec`, `lat`, `lon`) are modelled as exact
  rationals (`ℚ`); arithmetic on them is defined through `mkRat` so that
  concrete runs evaluate inside the kernel.
* TEXT columns and Python strings are modelled as `String` / `List Char`;
  string algorithms are written out over `List Char`.
* `hashlib.sha256(...).hexdigest()` is embedded as a full SHA-256
  implementation over byte lists, with UTF-8 encoding of the content.
* `sqlite3` state is modelled as an explicit table of rows plus an
  append-only action log; a connection carries a committed snapshot and
  the current (uncommitted) state, and `commit` publishes the current
  state.  Fallible statements and external collaborators are driven by
  explicit oracles so that error paths of the Python code are reachable
  in the model.
-/

/- ### Rational helpers (REAL column arithmetic)

Mathlib's field operations on `ℚ` do not reduce in the kernel, so the
model uses `mkRat`-based arithmetic for the few places the source does
arithmetic on REAL values. -/

/-- Addition on `ℚ` via `mkRat`, kernel-computable. -/
def ratAdd (a b : ℚ) : ℚ := mkRat (a.num * (b.den : Int) + b.num * (a.den : Int)) (a.den * b.den)

/-- Multiplication on `ℚ` via `mkRat`, kernel-computable. -/
def ratMul (a b : ℚ) : ℚ := mkRat (a.num * b.num) (a.den * b.den)

/-- Division on `ℚ` via `mkRat`, kernel-computable; division by zero yields 0. -/
def ratDiv (a b : ℚ) : ℚ := mkRat (a.num * (b.den : Int) * Int.sign b.num) (a.den * b.num.natAbs)

/-- Truncation toward zero, Python `int(x)` on a float. -/
def ratTrunc (q : ℚ) : Int := if 0 ≤ q then q.floor else q.ceil

/- ### SHA-256 over byte lists

Embedding of `hashlib.sha256`.  Words are `Nat` reduced mod `2 ^ 32`. -/

/-- Rotate a 32-bit word right by `n`. -/
def rotr32 (x n : Nat) : Nat := ((x >>> n) ||| (x <<< (32 - n))) % 4294967296

/-- Big sigma-0 of SHA-256. -/
def bSig0 (x : Nat) : Nat := (rotr32 x 2) ^^^ (rotr32 x 13) ^^^ (rotr32 x 22)

/-- Big sigma-1 of SHA-256. -/
def bSig1 (x : Nat) : Nat := (rotr32 x 6) ^^^ (rotr32 x 11) ^^^ (rotr32 x 25)

/-- Small sigma-0 of SHA-256. -/
def sSig0 (x : Nat) : Nat := (rotr32 x 7) ^^^ (rotr32 x 18) ^^^ (x >>> 3)

/-- Small sigma-1 of SHA-256. -/
def sSig1 (x : Nat) : Nat := (rotr32 x 17) ^^^ (rotr32 x 19) ^^^ (x >>> 10)

/-- Round constants of SHA-256. -/
def shaK : List Nat :=
  [1116352408, 1899447441, 3049323471, 3921009573,
   961987163, 1508970993, 2453635748, 2870763221,
   3624381080, 310598401, 607225278, 1426881987,
   1925078388, 2162078206, 2614888103, 3248222580,
   3835390401, 4022224774, 264347078, 604807628,
   770255983, 1249150122, 1555081692, 1996064986,
   2554220882, 2821834349, 2952996808, 3210313671,
   3336571891, 3584528711, 113926993, 338241895,
   666307205, 773529912, 1294757372, 1396182291,
   1695183700, 1986661051, 2177026350, 2456956037,
   2730485921, 2820302411, 3259730800, 3345764771,
   3516065817, 3600352804, 4094571909, 275423344,
   430227734, 506948616, 659060556, 883997877,
   958139571, 1322822218, 1537002063, 1747873779,
   1955562222, 2024104815, 2227730452, 2361852424,
   2428436474, 2756734187, 3204031479, 3329325298]

/-- Initial hash state of SHA-256. -/
def shaH0 : List Nat :=
  [1779033703, 3144134277, 1013904242, 2773480762,
   1359893119, 2600822924, 528734635, 1541459225]

/-- Merkle–Damgård padding: append 0x80, zeros, and the 64-bit big-endian bit length. -/
def sha256pad (msg : List Nat) : List Nat :=
  let len := msg.length
  let k := (119 - len % 64) % 64
  let bitLen := 8 * len
  msg ++ [128] ++ List.replicate k 0 ++ (List.range 8).map (fun i => (bitLen >>> (8 * (7 - i))) % 256)

/-- Group bytes into big-endian 32-bit words. -/
def bytesToWords : List Nat → List Nat
  | a :: b :: c :: d :: rest => (((a * 256 + b) * 256 + c) * 256 + d) :: bytesToWords rest
  | _ => []

/-- Split a byte list into 64-byte blocks; `fuel` bounds the recursion. -/
def chunksOf64 : Nat → List Nat → List (List Nat)
  | 0, _ => []
  | _, [] => []
  | fuel + 1, l => l.take 64 :: chunksOf64 fuel (l.drop 64)

/-- Next message-schedule word from the sixteen most recent ones (newest
first): sigma1 of the second-newest plus the seventh plus sigma0 of the
fifteenth plus the sixteenth. -/
def shaNextW (recent : List Nat) : Nat :=
  (sSig1 (recent.getD 1 0) + recent.getD 6 0 + sSig0 (recent.getD 14 0) +
    recent.getD 15 0) % 4294967296

/-- One SHA-256 round on the eight-word working state. -/
def shaRound (s : List Nat) (kw : Nat × Nat) : List Nat :=
  match s with
  | [a, b, c, d, e, f, g, h] =>
    let ch := (e &&& f) ^^^ ((e ^^^ 4294967295) &&& g)
    let maj := (a &&& b) ^^^ (a &&& c) ^^^ (b &&& c)
    let t1 := (h + bSig1 e + ch + kw.1 + kw.2) % 4294967296
    let t2 := (bSig0 a + maj) % 4294967296
    [(t1 + t2) % 4294967296, a, b, c, (d + t1) % 4294967296, e, f, g]
  | other => other

/-- Compress one 64-byte block into the hash state: the 64 rounds consume the
block's sixteen words and then the sliding-window schedule extension. -/
def shaCompress (h : List Nat) (block : List Nat) : List Nat :=
  let ws0 := bytesToWords block
  let step := fun (st : List Nat × List Nat × Nat) (k : Nat) =>
    let (s, recent, t) := st
    let w := if t < 16 then ws0.getD t 0 else shaNextW recent
    (shaRound s (k, w), (w :: recent).take 16, t + 1)
  let s := (shaK.foldl step (h, [], 0)).1
  (h.zip s).map (fun p => (p.1 + p.2) % 4294967296)

/-- SHA-256 digest of a byte list, as eight 32-bit words. -/
def sha256words (msg : List Nat) : List Nat :=
  let padded := sha256pad msg
  (chunksOf64 padded.length padded).foldl shaCompress shaH0

/-- Lowercase hex digit. -/
def hexDigit (n : Nat) : Char := Char.ofNat (if n < 10 then 48 + n else 87 + n)

/-- Eight lowercase hex characters of a 32-bit word, most significant first. -/
def wordToHex8 (w : Nat) : List Char := (List.range 8).map (fun i => hexDigit ((w >>> (4 * (7 - i))) % 16))

/-- Full 64-character lowercase hex digest, `hashlib.sha256(bytes).hexdigest()`. -/
def sha256hex (msg : List Nat) : List Char :=
  (sha256words msg).foldr (fun w acc => wordToHex8 w ++ acc) []

/-- UTF-8 encoding of a single character, Python `str.encode()` per scalar value. -/
def utf8Char (c : Char) : List Nat :=
  let n := c.toNat
  if n < 128 then [n]
  else if n < 2048 then [192 + (n >>> 6), 128 + (n % 64)]
  else if n < 65536 then [224 + (n >>> 12), 128 + ((n >>> 6) % 64), 128 + (n % 64)]
  else [240 + (n >>> 18), 128 + ((n >>> 12) % 64), 128 + ((n >>> 6) % 64), 128 + (n % 64)]

/-- UTF-8 encoding of a string, Python `content.encode()`. -/
def utf8Encode (s : String) : List Nat := s.data.foldr (fun c acc => utf8Char c ++ acc) []

/-- Publisher fingerprint: `hashlib.sha256(content.encode()).hexdigest()[:16]`. -/
def contentHash16 (content : String) : String :=
  String.mk ((sha256hex (utf8Encode content)).take 16)

/-- Self-test of the SHA-256 embedding on the standard "abc" test vector. -/
theorem sha256_abc_vector :
    String.mk (sha256hex (utf8Encode "abc")) =
      "ba7816bf8f01cfea414140de5dae2223b00361a396177a9cb410ff61f20015ad" := by decide

/-- Self-test of the SHA-256 embedding on the empty message. -/
theorem sha256_empty_vector :
    String.mk (sha256hex (utf8Encode "")) =
      "e3b0c44298fc1c149afbf4c8996fb92427ae41e4649b934ca495991b7852b855" := by decide

/- ### Python string helpers

The Python sources use `str.strip`, `str.lower`, slicing and small regex
substitutions.  They are embedded as explicit `List Char` programs.
Only ASCII data reaches these functions in the modelled scenarios, so
`Char.toLower` (ASCII lowering) stands in for `str.lower()`. -/

/-- Whitespace as matched by Python `str.strip()` and the regex class for spaces (ASCII part). -/
def pySpace (c : Char) : Bool :=
  c = ' ' || c = '\t' || c = '\n' || c = '\x0d' || c = '\x0b' || c = '\x0c'

/-- Remove leading and trailing characters matching `p`, Python `str.strip` family. -/
def stripChar (p : Char → Bool) (l : List Char) : List Char :=
  ((l.dropWhile p).reverse.dropWhile p).reverse

/-- Python `str.strip()` on a char list. -/
def pyStrip (l : List Char) : List Char := stripChar pySpace l

/-- Helper for collapsing whitespace runs; the flag records whether a run is open. -/
def collapseWsGo : Bool → List Char → List Char
  | _, [] => []
  | inRun, c :: rest =>
    if pySpace c then
      if inRun then collapseWsGo true rest else '-' :: collapseWsGo true rest
    else c :: collapseWsGo false rest

/-- Replace each maximal whitespace run by a single dash, the `re.sub` on space runs in `slug_title`. -/
def collapseWs (l : List Char) : List Char := collapseWsGo false l

/-- Character class kept by the slug regex: lowercase letters, digits, whitespace, dash. -/
def slugKeep (c : Char) : Bool :=
  ('a' ≤ c && c ≤ 'z') || ('0' ≤ c && c ≤ '9') || pySpace c || c = '-'

/-- Python truthiness of an optional string: `None` and `""` are falsy. -/
def truthyS : Option String → Bool
  | some s => !s.data.isEmpty
  | none => false

/-- Python `x or default` for an optional string operand. -/
def pyOr (x : Option String) (d : String) : String :=
  match x with
  | some s => if s.data.isEmpty then d else s
  | none => d

/-- Zero-padded two-digit rendering, Python `f"{n:02d}"` for the nonnegative values used here. -/
def pad2 (i : Int) : String :=
  let s := toString i
  if s.data.length < 2 then "0" ++ s else s

/-- Negation on `ℚ`, kernel-computable. -/
def ratNeg (q : ℚ) : ℚ := mkRat (-q.num) q.den

/-- Subtraction on `ℚ`, kernel-computable. -/
def ratSub (a b : ℚ) : ℚ := ratAdd a (ratNeg b)

/-- Python `f"{x:.1f}"` on the exact rational value: round half to even at one
decimal place.  (CPython rounds the underlying binary float; all REAL values
appearing in the modelled scenarios are exactly representable at one decimal,
where the two agree.) -/
def fmt1 (q : ℚ) : String :=
  let n := ratMul q 10
  let fl : Int := n.floor
  let frac := ratSub n (mkRat fl 1)
  let half : ℚ := mkRat 1 2
  let r : Int :=
    if frac < half then fl
    else if half < frac then fl + 1
    else if fl % 2 = 0 then fl else fl + 1
  let sign := if r < 0 then "-" else ""
  let a := r.natAbs
  sign ++ toString (a / 10) ++ "." ++ toString (a % 10)

/- ### models.py: transcript status and the Asset record -/

/-- Values of the `transcript_status` column, closed by its CHECK constraint. -/
inductive TranscriptStatus
  | pending
  | running
  | done
  | failed
  | skipped
deriving Repr, DecidableEq

/-- Text stored in the `transcript_status` column. -/
def TranscriptStatus.toText : TranscriptStatus → String
  | .pending => "pending"
  | .running => "running"
  | .done => "done"
  | .failed => "failed"
  | .skipped => "skipped"

/-- The `Asset` dataclass of models.py, equally a row of the `asset` table of db.py.
REAL columns are exact rationals, BLOB is a byte list, and nullable columns are
`Option`.  `scanned_at` and `updated_at` carry the timestamp strings written by
the schema defaults and the `updated_at` trigger. -/
structure Asset where
  id : String
  source_type : String
  source_path : String
  filename : String
  title : Option String := none
  duration_sec : Option ℚ := none
  recorded_at : Option String := none
  file_format : Option String := none
  file_size_bytes : Option Int := none
  apple_audio_digest : Option (List Nat) := none
  has_gps : Int := 0
  lat : Option ℚ := none
  lon : Option ℚ := none
  place : Option String := none
  transcript_status : TranscriptStatus := .pending
  transcript_model : Option String := none
  transcript_lang : Option String := none
  transcript_at : Option String := none
  transcript_path : Option String := none
  summary : Option String := none
  topics : Option String := none
  people : Option String := none
  sentiment : Option String := none
  enriched_at : Option String := none
  note_path : Option String := none
  published_at : Option String := none
  note_hash : Option String := none
  scanned_at : String := ""
  updated_at : String := ""
deriving Repr, DecidableEq

/-- Leading segment of the id before the first dash. -/
def takeUntilDash : List Char → List Char
  | [] => []
  | c :: rest => if c = '-' then [] else c :: takeUntilDash rest

/-- The `short_id` property: first dash-separated component, or the first 8 characters. -/
def Asset.short_id (a : Asset) : String :=
  if a.id.data.contains '-' then String.mk (takeUntilDash a.id.data)
  else String.mk (a.id.data.take 8)

/-- The `duration_display` property: `h:mm:ss` or `m:ss` from the truncated seconds. -/
def Asset.duration_display (a : Asset) : String :=
  match a.duration_sec with
  | none => "unknown"
  | some q =>
    let total := ratTrunc q
    let h := total.ediv 3600
    let remainder := total.emod 3600
    let m := remainder.ediv 60
    let s := remainder.emod 60
    if h > 0 then toString h ++ ":" ++ pad2 m ++ ":" ++ pad2 s
    else toString m ++ ":" ++ pad2 s

/-- The `recorded_date` property: first ten characters of a truthy `recorded_at`. -/
def Asset.recorded_date (a : Asset) : Option String :=
  if truthyS a.recorded_at then some (String.mk ((a.recorded_at.getD "").data.take 10))
  else none

/-- The `slug_title` property: lowercase, strip, drop chars outside the kept
class, collapse whitespace runs to dashes, strip dashes, truncate to 60,
default "untitled". -/
def Asset.slug_title (a : Asset) : String :=
  let title := pyOr a.title "untitled"
  let slug := pyStrip (title.data.map Char.toLower)
  let slug := slug.filter slugKeep
  let slug := collapseWs slug
  let slug := stripChar (· = '-') slug
  let slug := slug.take 60
  if slug.isEmpty then "untitled" else String.mk slug

/-- The `note_filename` property: `date_slug_shortid.md`. -/
def Asset.note_filename (a : Asset) : String :=
  let date := (a.recorded_date).getD "undated"
  date ++ "_" ++ a.slug_title ++ "_" ++ a.short_id ++ ".md"

/-- Self-test: spec scenario for `duration_display` and `note_filename` at 125.4 s. -/
theorem asset_scenario_selftest :
    let a : Asset := { id := "7C4A1B22-9D3E-4F10-8888-123456789ABC",
                       source_type := "voice_memo", source_path := "/p", filename := "f.m4a",
                       title := some "Morning thoughts", duration_sec := some (mkRat 1254 10),
                       recorded_at := some "2024-03-01T08:15:00Z" }
    a.duration_display = "2:05" ∧ a.note_filename = "2024-03-01_morning-thoughts_7C4A1B22.md" := by
  decide

/- ### enricher.py: JSON value type and `json.loads`

The enricher parses the collaborator response with `json.loads`.  The
embedding implements the stdlib JSON grammar (strict mode): objects,
arrays, strings with escapes, numbers (kept as their lexeme), literals,
plus the `NaN` / `Infinity` constants CPython accepts by default.  A
lone surrogate from a `\u` escape, which Python would keep in the str,
is mapped to U+FFFD since Lean chars are scalar values; no modelled
scenario contains one. -/

/-- Opening structural delimiter (left curly brace). -/
def lbrace : Char := Char.ofNat 123

/-- Closing structural delimiter (right curly brace). -/
def rbrace : Char := Char.ofNat 125

/-- JSON parse result. -/
inductive Json
  | null
  | bool (b : Bool)
  | num (lexeme : String)
  | str (s : String)
  | arr (elems : List Json)
  | obj (fields : List (String × Json))
deriving Repr

/-- JSON whitespace. -/
def jWs (c : Char) : Bool := c = ' ' || c = '\t' || c = '\n' || c = '\x0d'

/-- Skip JSON whitespace. -/
def jSkipWs (l : List Char) : List Char := l.dropWhile jWs

/-- Value of one hex digit. -/
def hexVal (c : Char) : Option Nat :=
  if '0' ≤ c && c ≤ '9' then some (c.toNat - 48)
  else if 'a' ≤ c && c ≤ 'f' then some (c.toNat - 87)
  else if 'A' ≤ c && c ≤ 'F' then some (c.toNat - 55)
  else none

/-- Parse exactly four hex digits. -/
def jParseHex4 : List Char → Option (Nat × List Char)
  | a :: b :: c :: d :: rest => do
    let x ← hexVal a
    let y ← hexVal b
    let z ← hexVal c
    let w ← hexVal d
    pure (((x * 16 + y) * 16 + z) * 16 + w, rest)
  | _ => none

/-- Parse the body of a JSON string after the opening quote; strict mode
rejects raw control characters. -/
def jParseStringGo : Nat → List Char → List Char → Option (String × List Char)
  | 0, _, _ => none
  | _ + 1, _, [] => none
  | fuel + 1, acc, c :: rest =>
    if c = '\"' then some (String.mk acc.reverse, rest)
    else if c = '\\' then
      match rest with
      | [] => none
      | e :: rest2 =>
        if e = '\"' then jParseStringGo fuel ('\"' :: acc) rest2
        else if e = '\\' then jParseStringGo fuel ('\\' :: acc) rest2
        else if e = '/' then jParseStringGo fuel ('/' :: acc) rest2
        else if e = 'b' then jParseStringGo fuel ('\x08' :: acc) rest2
        else if e = 'f' then jParseStringGo fuel ('\x0c' :: acc) rest2
        else if e = 'n' then jParseStringGo fuel ('\n' :: acc) rest2
        else if e = 'r' then jParseStringGo fuel ('\x0d' :: acc) rest2
        else if e = 't' then jParseStringGo fuel ('\t' :: acc) rest2
        else if e = 'u' then
          match jParseHex4 rest2 with
          | none => none
          | some (u, rest3) =>
            if 55296 ≤ u && u ≤ 56319 then
              match rest3 with
              | '\\' :: 'u' :: rest4 =>
                match jParseHex4 rest4 with
                | some (v, rest5) =>
                  if 56320 ≤ v && v ≤ 57343 then
                    jParseStringGo fuel
                      (Char.ofNat (65536 + (u - 55296) * 1024 + (v - 56320)) :: acc) rest5
                  else jParseStringGo fuel (Char.ofNat 65533 :: acc) rest3
                | none => jParseStringGo fuel (Char.ofNat 65533 :: acc) rest3
              | _ => jParseStringGo fuel (Char.ofNat 65533 :: acc) rest3
            else if 56320 ≤ u && u ≤ 57343 then
              jParseStringGo fuel (Char.ofNat 65533 :: acc) rest3
            else jParseStringGo fuel (Char.ofNat u :: acc) rest3
        else none
    else if c.toNat < 32 then none
    else jParseStringGo fuel (c :: acc) rest

/-- Parse a JSON number lexeme, the stdlib NUMBER_RE; returns the matched text. -/
def jParseNumber (l : List Char) : Option (String × List Char) :=
  let (sign, l1) := match l with
    | '-' :: t => (['-'], t)
    | _ => (([] : List Char), l)
  match l1 with
  | [] => none
  | c :: t =>
    if !c.isDigit then none
    else
      let (ipart, r1) :=
        if c = '0' then ([c], t)
        else (c :: t.takeWhile Char.isDigit, t.dropWhile Char.isDigit)
      let (fpart, r2) :=
        match r1 with
        | '.' :: t2 =>
          let ds := t2.takeWhile Char.isDigit
          if ds.isEmpty then (([] : List Char), r1) else ('.' :: ds, t2.dropWhile Char.isDigit)
        | _ => (([] : List Char), r1)
      let (epart, r3) :=
        match r2 with
        | e :: t3 =>
          if e = 'e' || e = 'E' then
            let (sg, t4) := match t3 with
              | '+' :: t5 => (['+'], t5)
              | '-' :: t5 => (['-'], t5)
              | _ => (([] : List Char), t3)
            let ds := t4.takeWhile Char.isDigit
            if ds.isEmpty then (([] : List Char), r2)
            else (e :: (sg ++ ds), t4.dropWhile Char.isDigit)
          else (([] : List Char), r2)
        | _ => (([] : List Char), r2)
      some (String.mk (sign ++ ipart ++ fpart ++ epart), r3)

/-- Test for a literal prefix. -/
def jLit (w : List Char) (l : List Char) : Option (List Char) :=
  if l.take w.length = w then some (l.drop w.length) else none

mutual

/-- Parse one JSON value.  `fuel` strictly decreases on every recursive call
and is initialised to the input length plus one, which bounds the call depth. -/
def jParseVal : Nat → List Char → Option (Json × List Char)
  | 0, _ => none
  | fuel + 1, l =>
    match l with
    | [] => none
    | c :: rest =>
      if c = '\"' then
        match jParseStringGo (rest.length + 1) [] rest with
        | some (s, r) => some (Json.str s, r)
        | none => none
      else if c = lbrace then jParseObjBody fuel rest
      else if c = '[' then jParseArrBody fuel rest
      else
        match jLit ['n', 'u', 'l', 'l'] l with
        | some r => some (Json.null, r)
        | none =>
        match jLit ['t', 'r', 'u', 'e'] l with
        | some r => some (Json.bool true, r)
        | none =>
        match jLit ['f', 'a', 'l', 's', 'e'] l with
        | some r => some (Json.bool false, r)
        | none =>
        match jParseNumber l with
        | some (s, r) => some (Json.num s, r)
        | none =>
        match jLit ['N', 'a', 'N'] l with
        | some r => some (Json.num "NaN", r)
        | none =>
        match jLit ['I', 'n', 'f', 'i', 'n', 'i', 't', 'y'] l with
        | some r => some (Json.num "Infinity", r)
        | none =>
        match jLit ['-', 'I', 'n', 'f', 'i', 'n', 'i', 't', 'y'] l with
        | some r => some (Json.num "-Infinity", r)
        | none => none

/-- Parse an object body after the opening brace. -/
def jParseObjBody : Nat → List Char → Option (Json × List Char)
  | 0, _ => none
  | fuel + 1, l =>
    let l := jSkipWs l
    match l with
    | [] => none
    | c :: rest =>
      if c = rbrace then some (Json.obj [], rest)
      else if c = '\"' then jParseObjItems fuel [] (c :: rest)
      else none

/-- Parse the members of a nonempty object; the cursor is on a key quote. -/
def jParseObjItems : Nat → List (String × Json) → List Char → Option (Json × List Char)
  | 0, _, _ => none
  | fuel + 1, acc, l =>
    match l with
    | '\"' :: rest =>
      match jParseStringGo (rest.length + 1) [] rest with
      | none => none
      | some (k, r1) =>
        match jSkipWs r1 with
        | ':' :: r2 =>
          match jParseVal fuel (jSkipWs r2) with
          | none => none
          | some (v, r3) =>
            match jSkipWs r3 with
            | c :: r4 =>
              if c = rbrace then some (Json.obj ((acc ++ [(k, v)])), r4)
              else if c = ',' then jParseObjItems fuel (acc ++ [(k, v)]) (jSkipWs r4)
              else none
            | [] => none
        | _ => none
    | _ => none

/-- Parse an array body after the opening bracket. -/
def jParseArrBody : Nat → List Char → Option (Json × List Char)
  | 0, _ => none
  | fuel + 1, l =>
    let l := jSkipWs l
    match l with
    | [] => none
    | c :: rest =>
      if c = ']' then some (Json.arr [], rest)
      else jParseArrItems fuel [] (c :: rest)

/-- Parse the elements of a nonempty array; the cursor is on an element. -/
def jParseArrItems : Nat → List Json → List Char → Option (Json × List Char)
  | 0, _, _ => none
  | fuel + 1, acc, l =>
    match jParseVal fuel l with
    | none => none
    | some (v, r1) =>
      match jSkipWs r1 with
      | c :: r2 =>
        if c = ']' then some (Json.arr (acc ++ [v]), r2)
        else if c = ',' then jParseArrItems fuel (acc ++ [v]) (jSkipWs r2)
        else none
      | [] => none

end

/-- Embedding of `json.loads`: parse one value and require only
whitespace after it ("Extra data" otherwise). -/
def jsonLoads (s : String) : Option Json :=
  let l := jSkipWs s.data
  match jParseVal (l.length + 1) l with
  | some (v, rest) => if (jSkipWs rest).isEmpty then some v else none
  | none => none

/-- Index of the first occurrence of a character, Python `str.find`. -/
def firstIdx (c : Char) : List Char → Option Nat
  | [] => none
  | x :: rest => if x = c then some 0 else (firstIdx c rest).map (· + 1)

/-- Index of the last occurrence of a character, Python `str.rfind`. -/
def lastIdx (c : Char) (l : List Char) : Option Nat :=
  (firstIdx c l.reverse).map (fun i => l.length - 1 - i)

/-- The four fields `parse_enrichment_response` requires. -/
def requiredFields : List String := ["summary", "topics", "people", "sentiment"]

/-- Embedding of `parse_enrichment_response` (enricher.py): slice from the
first opening brace to the last closing brace, `json.loads` the slice, and
require all four fields; any failure yields `none`. -/
def parse_enrichment_response (response : String) : Option (List (String × Json)) :=
  let cs := response.data
  match firstIdx lbrace cs, lastIdx rbrace cs with
  | some start, some stop =>
    let json_str := (cs.drop start).take (stop + 1 - start)
    match jsonLoads (String.mk json_str) with
    | some (Json.obj fields) =>
      if requiredFields.all (fun k => fields.any (fun kv => kv.1 = k)) then some fields
      else none
    | _ => none
  | _, _ => none

/-- Self-test of the JSON embedding on a nested document. -/
theorem jsonLoads_selftest :
    jsonLoads " \x7b\"a\": [1, 2.5e3, null, true, \"x\\n\"], \"b\": \x7b\x7d\x7d " =
      some (Json.obj [("a", Json.arr [Json.num "1", Json.num "2.5e3", Json.null,
        Json.bool true, Json.str "x\n"]), ("b", Json.obj [])]) := rfl

/- ### db.py: table state, connection, audit log -/

/-- Values of the flat detail dicts the sources pass to `log_action` and
`write_jsonl`: every call site passes only strings and ints (floats are
pre-formatted into strings at those sites). -/
inductive DetailVal
  | dstr (v : String)
  | dint (v : Int)
deriving Repr, DecidableEq

/-- Escaping of `json.dumps` for quote and backslash; the detail strings in
the modelled scenarios contain no control characters. -/
def jsonEscape (s : String) : String :=
  String.mk (s.data.foldr (fun c acc => if c = '\"' || c = '\\' then '\\' :: c :: acc else c :: acc) [])

/-- Join strings with a separator. -/
def joinWith (sep : String) : List String → String
  | [] => ""
  | [x] => x
  | x :: rest => x ++ sep ++ joinWith sep rest

/-- Python `json.dumps` on a flat detail dict (default separators). -/
def dumpDetail (d : List (String × DetailVal)) : String :=
  let item := fun (kv : String × DetailVal) =>
    "\"" ++ jsonEscape kv.1 ++ "\": " ++
      (match kv.2 with
       | .dstr v => "\"" ++ jsonEscape v ++ "\""
       | .dint v => toString v)
  String.mk [lbrace] ++ joinWith ", " (d.map item) ++ String.mk [rbrace]

/-- One row of the `action_log` table; `detail` holds the dumped JSON text. -/
structure AuditEvent where
  command : String
  asset_id : Option String
  action : String
  detail : Option String
deriving Repr, DecidableEq

/-- The database state: the `asset` table and the append-only `action_log`. -/
structure DB where
  asset : List Asset
  action_log : List AuditEvent
deriving Repr, DecidableEq

/-- A sqlite connection: the last committed snapshot and the current
(uncommitted) state seen by further statements on the same connection. -/
structure Conn where
  committed : DB
  cur : DB
deriving Repr, DecidableEq

/-- Commit: publish the current state. -/
def Conn.commit (c : Conn) : Conn := { committed := c.cur, cur := c.cur }

/-- Embedding of `AtlasDB.log_action`: append one audit row; an empty dict is
falsy in Python, so it is stored as NULL like `None`. -/
def log_action (db : DB) (command action : String) (asset_id : Option String)
    (detail : Option (List (String × DetailVal))) : DB :=
  let dumped := match detail with
    | some d => if d.isEmpty then none else some (dumpDetail d)
    | none => none
  { db with action_log := db.action_log ++
      [{ command := command, asset_id := asset_id, action := action, detail := dumped }] }

/-- Embedding of `AtlasDB.upsert_asset`: insert a fresh row with schema
defaults, skip when title, duration and recorded-at are unchanged, and
otherwise overwrite the source-derived columns only.  `now` is the timestamp
the schema defaults and the `updated_at` trigger would write. -/
def upsert_asset (now : String) (table : List Asset) (asset : Asset) : String × List Asset :=
  match table.find? (fun r => r.id == asset.id) with
  | none =>
    ("insert", table ++ [{ id := asset.id, source_type := asset.source_type,
                           source_path := asset.source_path, filename := asset.filename,
                           title := asset.title, duration_sec := asset.duration_sec,
                           recorded_at := asset.recorded_at, file_format := asset.file_format,
                           file_size_bytes := asset.file_size_bytes,
                           apple_audio_digest := asset.apple_audio_digest,
                           scanned_at := now, updated_at := now }])
  | some existing =>
    if existing.title = asset.title ∧ existing.duration_sec = asset.duration_sec ∧
        existing.recorded_at = asset.recorded_at then
      ("skip", table)
    else
      ("update", table.map (fun r =>
        if r.id = asset.id then
          { r with
            source_path := asset.source_path, filename := asset.filename,
            title := asset.title, duration_sec := asset.duration_sec,
            recorded_at := asset.recorded_at, file_format := asset.file_format,
            file_size_bytes := asset.file_size_bytes,
            apple_audio_digest := asset.apple_audio_digest,
            updated_at := now }
        else r))

/-- Embedding of `AtlasDB.mark_published`: set note path, publication time and
fingerprint on the matching row (the trigger also bumps `updated_at`). -/
def mark_published (now : String) (db : DB) (asset_id note_path note_hash : String) : DB :=
  { db with asset := db.asset.map (fun r =>
      if r.id = asset_id then
        { r with
          note_path := some note_path, published_at := some now,
          note_hash := some note_hash, updated_at := now }
      else r) }

/-- Bytewise lexicographic comparison, the sqlite TEXT ordering (BINARY collation)
for the ASCII data in the modelled scenarios. -/
def lexLe : List Char → List Char → Bool
  | [], _ => true
  | _ :: _, [] => false
  | a :: as, b :: bs => if a < b then true else if b < a then false else lexLe as bs

/-- Ordering on a nullable TEXT column: sqlite sorts NULLs first ascending. -/
def optStrLe (a b : Option String) : Bool :=
  match a, b with
  | none, _ => true
  | some _, none => false
  | some x, some y => lexLe x.data y.data

/-- Ordering on a nullable REAL column: sqlite sorts NULLs first ascending. -/
def optRatLe (a b : Option ℚ) : Bool :=
  match a, b with
  | none, _ => true
  | some _, none => false
  | some x, some y => decide (x ≤ y)

/-- ORDER BY recorded_at ASC.  A stable sort; sqlite leaves tie order
unspecified and no claim depends on it. -/
def sortByRecordedAt (rows : List Asset) : List Asset :=
  List.insertionSort (fun a b => optStrLe a.recorded_at b.recorded_at = true) rows

/-- Embedding of `AtlasDB.get_unpublished_assets`: rows with NULL note_path,
ordered by recorded_at. -/
def get_unpublished_assets (db : DB) : List Asset :=
  sortByRecordedAt (db.asset.filter (fun r => r.note_path.isNone))

/-- Embedding of `AtlasDB.get_all_assets`: all rows ordered by recorded_at. -/
def get_all_assets (db : DB) : List Asset := sortByRecordedAt db.asset

/- ### publisher.py: note rendering and the publish loop -/

/-- Python `str(b).lower()` for a bool. -/
def pyBoolStr (b : Bool) : String := if b then "true" else "false"

/-- Escape double quotes, the `.replace('"', '\\"')` on the title. -/
def escapeQuotes (l : List Char) : List Char :=
  l.foldr (fun c acc => if c = '\"' then '\\' :: '\"' :: acc else c :: acc) []

/-- Decimal rendering of an exact rational, standing in for the CPython float
repr in the (unexercised) GPS frontmatter lines; exact when the expansion
terminates within 17 digits. -/
def ratRepr (q : ℚ) : String :=
  let sign := if q.num < 0 then "-" else ""
  let n := q.num.natAbs
  let d := q.den
  let ip := n / d
  let step := fun (st : List Char × Nat) (_ : Nat) =>
    let (ds, r) := st
    if r = 0 then (ds, r)
    else ((ds ++ [Char.ofNat (48 + (r * 10) / d)], (r * 10) % d))
  let (ds, _) := (List.range 17).foldl step ([], n % d)
  let frac := if ds.isEmpty then "0" else String.mk ds
  sign ++ toString ip ++ "." ++ frac

/-- Embedding of `generate_note_content` (publisher.py): the deterministic
markdown rendering of one asset. -/
def generate_note_content (asset : Asset) : String :=
  let title_escaped := String.mk (escapeQuotes (pyOr asset.title "Untitled").data)
  let lines : List String :=
    ["---", "uuid: " ++ asset.id, "type: " ++ asset.source_type,
     "title: \"" ++ title_escaped ++ "\""]
    ++ (if truthyS asset.recorded_at then
          ["recorded: " ++ asset.recorded_at.getD "",
           "date: " ++ (match asset.recorded_date with | some d => d | none => "None")]
        else [])
    ++ (match asset.duration_sec with
        | some q => ["duration: " ++ asset.duration_display, "duration_sec: " ++ fmt1 q]
        | none => [])
    ++ ["format: " ++ pyOr asset.file_format "unknown",
        "transcribed: " ++ pyBoolStr (asset.transcript_status = TranscriptStatus.done),
        "enriched: " ++ pyBoolStr asset.summary.isSome]
    ++ (let tags := ["memoryatlas",
          "memoryatlas/" ++ String.mk (asset.source_type.data.map (fun c => if c = '_' then '-' else c))]
        let tags := if asset.transcript_status = TranscriptStatus.done then
          tags ++ ["memoryatlas/transcribed"] else tags
        ["tags: [" ++ joinWith ", " tags ++ "]"])
    ++ ["atlas-id: " ++ asset.short_id]
    ++ (if asset.has_gps ≠ 0 ∧ asset.lat.isSome then
          ["location: [" ++ ratRepr (asset.lat.getD 0) ++ ", " ++
             (match asset.lon with | some v => ratRepr v | none => "None") ++ "]"]
          ++ (if truthyS asset.place then ["place: \"" ++ asset.place.getD "" ++ "\""] else [])
        else [])
    ++ ["---", "", "# " ++ pyOr asset.title "Untitled Recording", "",
        "| Field | Value |", "|-------|-------|"]
    ++ (if truthyS asset.recorded_at then ["| Recorded | " ++ asset.recorded_at.getD "" ++ " |"] else [])
    ++ ["| Duration | " ++ asset.duration_display ++ " |",
        "| Format | ." ++ pyOr asset.file_format "?" ++ " |",
        "| Source | Apple Voice Memos |",
        "| UUID | `" ++ asset.short_id ++ "` |"]
    ++ (if truthyS asset.place then ["| Location | " ++ asset.place.getD "" ++ " |"] else [])
    ++ [""]
    ++ (if asset.transcript_status = TranscriptStatus.done ∧ truthyS asset.transcript_path then
          ["## Transcript", "", "[Open transcript](file://" ++ asset.transcript_path.getD "" ++ ")", ""]
        else ["## Transcript", "", "*Pending transcription.*", ""])
    ++ (if truthyS asset.summary then
          ["## Summary", "", asset.summary.getD "", ""]
          ++ (if truthyS asset.topics then ["**Topics**: " ++ asset.topics.getD "", ""] else [])
          ++ (if truthyS asset.people ∧
                String.mk ((asset.people.getD "").data.map Char.toLower) ≠ "none" then
                ["**People**: " ++ asset.people.getD "", ""] else [])
          ++ (if truthyS asset.sentiment then ["**Sentiment**: " ++ asset.sentiment.getD "", ""] else [])
        else [])
  joinWith "\n" lines

/-- Environment of a publish run: whether a vault write at a path succeeds,
the message of a failed write, and the wall-clock timestamp. -/
structure PubEnv where
  fsWriteOk : String → Bool
  writeErr : String → String
  now : String

/-- One line of the append-only JSONL audit file written by `write_jsonl`
(util.py); `id` and `d` are present only when truthy. -/
structure JsonlEntry where
  ts : String
  cmd : String
  act : String
  id : Option String
  d : Option (List (String × DetailVal))
deriving Repr, DecidableEq

/-- Embedding of `write_jsonl` (util.py). -/
def write_jsonl (now : String) (jsonl : List JsonlEntry) (cmd act : String)
    (asset_id : Option String) (detail : Option (List (String × DetailVal))) : List JsonlEntry :=
  let idField := match asset_id with
    | some s => if s.data.isEmpty then none else some s
    | none => none
  let dField := match detail with
    | some d => if d.isEmpty then none else some d
    | none => none
  jsonl ++ [{ ts := now, cmd := cmd, act := act, id := idField, d := dField }]

/-- Mutable state of a publish run: the connection, the vault file system
(path to content), and the JSONL audit file. -/
structure PubSt where
  conn : Conn
  fs : String → Option String
  jsonl : List JsonlEntry

/-- Counts returned by `publish`. -/
structure PubCounts where
  created : Nat
  updated : Nat
  skipped : Nat
  error : Nat
deriving Repr, DecidableEq

/-- The per-record body of the publish loop, publisher.py lines 106-146.
The only fallible operation per record is the vault write; a failure takes
the except branch.  The third component accumulates the write operations
performed by this run. -/
def publishStep (env : PubEnv) (force : Bool)
    (acc : PubSt × PubCounts × List (String × String)) (row : Asset) :
    PubSt × PubCounts × List (String × String) :=
  let (st, counts, writes) := acc
  let asset := row
  let content := generate_note_content asset
  let content_hash := contentHash16 content
  let note_filename := asset.note_filename
  let note_path := "voice/" ++ note_filename
  let relative_note_path := "MemoryAtlas/voice/" ++ note_filename
  if (st.fs note_path).isSome ∧ asset.note_hash = some content_hash ∧ ¬ force then
    (st, { counts with skipped := counts.skipped + 1 }, writes)
  else
    let is_new := (st.fs note_path).isNone
    if env.fsWriteOk note_path then
      let fs' := fun p => if p = note_path then some content else st.fs p
      let db1 := mark_published env.now st.conn.cur asset.id relative_note_path content_hash
      let action := if is_new then "create" else "update"
      let detail := [("note_path", DetailVal.dstr relative_note_path)]
      let db2 := log_action db1 "publish" action (some asset.id) (some detail)
      let jsonl2 := write_jsonl env.now st.jsonl "publish" action (some asset.id) (some detail)
      let counts2 := if is_new then { counts with created := counts.created + 1 }
        else { counts with updated := counts.updated + 1 }
      ({ conn := { st.conn with cur := db2 }, fs := fs', jsonl := jsonl2 }, counts2,
        writes ++ [(note_path, content)])
    else
      let db1 := log_action st.conn.cur "publish" "error" (some row.id)
        (some [("error", DetailVal.dstr (env.writeErr note_path))])
      ({ st with conn := { st.conn with cur := db1 } }, { counts with error := counts.error + 1 },
        writes)

/-- Embedding of `publish` (publisher.py): log start, select candidates (all
rows when forced, never-published rows otherwise), run the loop, then commit,
log completion and commit again.  Returns the counts, the final state, and
the vault writes performed by this run. -/
def publish (env : PubEnv) (force : Bool) (st : PubSt) :
    PubCounts × PubSt × List (String × String) :=
  let st := { st with conn := { st.conn with cur := log_action st.conn.cur "publish" "start" none none } }
  let rows := if force then get_all_assets st.conn.cur else get_unpublished_assets st.conn.cur
  let init : PubSt × PubCounts × List (String × String) :=
    (st, { created := 0, updated := 0, skipped := 0, error := 0 }, [])
  let (st, counts, writes) := rows.foldl (publishStep env force) init
  let st := { st with conn := st.conn.commit }
  let db := log_action st.conn.cur "publish" "complete" none
    (some [("created", DetailVal.dint counts.created), ("updated", DetailVal.dint counts.updated),
           ("skipped", DetailVal.dint counts.skipped), ("error", DetailVal.dint counts.error)])
  let st := { st with conn := { st.conn with cur := db } }
  (counts, { st with conn := st.conn.commit }, writes)

/- ### transcriber.py: batch transcription -/

/-- Result of `mlx_whisper.transcribe`, the fields the source reads; only the
number of segments is observable in the model (the list itself is dumped into
the structured artifact, which no claim inspects). -/
structure TResult where
  text : String
  segments : Nat
  language : String
deriving Repr, DecidableEq

/-- Store statements the transcriber executes; the oracle decides which raise. -/
inductive DbStmt
  | markSkipped
  | markRunning
  | markDone
  | logDone
  | markFailed
  | logFailed
deriving Repr, DecidableEq

/-- Environment of a transcribe run: source-file existence, the external
transcription collaborator, transcript-file write success and error text,
store statement success, per-record transcription wall time, and the
timestamp. -/
structure TEnv where
  fileExists : String → Bool
  transcribe : String → Except String TResult
  fsWriteOk : String → Bool
  writeErr : String → String
  dbOk : DbStmt → String → Bool
  elapsedFor : String → ℚ
  now : String

/-- State of a transcribe run: the connection, the transcripts directory, the
trace of committed snapshots, the ids sent to the external collaborator, and
the status transitions performed (id, from, to). -/
structure TSt where
  conn : Conn
  fs : String → Option String
  commits : List DB
  calls : List String
  trans : List (String × TranscriptStatus × TranscriptStatus)

/-- UPDATE of `transcript_status` on one id (the trigger bumps `updated_at`);
the returned events record the transitions performed. -/
def setStatus (now : String) (id : String) (new : TranscriptStatus) (db : DB) :
    DB × List (String × TranscriptStatus × TranscriptStatus) :=
  ({ db with asset := db.asset.map (fun r =>
      if r.id = id then { r with transcript_status := new, updated_at := now } else r) },
   (db.asset.filter (fun r => r.id == id)).map (fun r => (id, r.transcript_status, new)))

/-- The done UPDATE: status plus model, language, completion time and path. -/
def setDone (now : String) (id model lang tpath : String) (db : DB) :
    DB × List (String × TranscriptStatus × TranscriptStatus) :=
  ({ db with asset := db.asset.map (fun r =>
      if r.id = id then
        { r with
          transcript_status := .done, transcript_model := some model,
          transcript_lang := some lang, transcript_at := some now,
          transcript_path := some tpath, updated_at := now }
      else r) },
   (db.asset.filter (fun r => r.id == id)).map (fun r => (id, r.transcript_status, .done)))

/-- Execute one store statement; on a raise the state is returned unchanged
together with the error. -/
def execStmt (env : TEnv) (stmt : DbStmt) (aid : String)
    (mutate : DB → DB × List (String × TranscriptStatus × TranscriptStatus)) (st : TSt) :
    TSt × Option String :=
  if env.dbOk stmt aid then
    let (db2, evs) := mutate st.conn.cur
    ({ st with conn := { st.conn with cur := db2 }, trans := st.trans ++ evs }, none)
  else (st, some "database error")

/-- Commit and record the committed snapshot. -/
def commitT (st : TSt) : TSt :=
  { st with conn := st.conn.commit, commits := st.commits ++ [st.conn.cur] }

/-- Counts returned by `transcribe_batch`. -/
structure TCounts where
  done : Nat
  failed : Nat
  skipped : Nat
  total_seconds : ℚ
deriving Repr, DecidableEq

/-- The guarded region of the transcribe loop (the `try` block, transcriber.py
lines 106-168): call the collaborator, write both transcript artifacts, run
the done UPDATE, commit, insert the done audit event, commit.  Returns the
state reached together with the raised error, if any. -/
def tryBody (env : TEnv) (model : String) (row : Asset) (st : TSt) : TSt × Option String :=
  let st := { st with calls := st.calls ++ [row.id] }
  match env.transcribe row.source_path with
  | .error e => (st, some e)
  | .ok result =>
    let text := String.mk (pyStrip result.text.data)
    let lang := result.language
    let transcript_txt := "transcripts/" ++ row.id ++ ".txt"
    let transcript_json := "transcripts/" ++ row.id ++ ".json"
    if env.fsWriteOk transcript_txt then
      let st := { st with fs := fun p => if p = transcript_txt then some text else st.fs p }
      if env.fsWriteOk transcript_json then
        let duration := row.duration_sec.getD 0
        let elapsed := env.elapsedFor row.id
        let speed := if 0 < elapsed then ratDiv duration elapsed else 0
        let jcontent := dumpDetail
          [("text", DetailVal.dstr text), ("language", DetailVal.dstr lang),
           ("segments", DetailVal.dint result.segments), ("model", DetailVal.dstr model),
           ("duration_sec", DetailVal.dstr (ratRepr duration)),
           ("transcribe_time_sec", DetailVal.dstr (ratRepr elapsed)),
           ("speed_factor", DetailVal.dstr (ratRepr speed))]
        let st := { st with fs := fun p => if p = transcript_json then some jcontent else st.fs p }
        match execStmt env .markDone row.id (setDone env.now row.id model lang transcript_txt) st with
        | (st, some e) => (st, some e)
        | (st, none) =>
          let st := commitT st
          match execStmt env .logDone row.id
              (fun db => (log_action db "transcribe" "done" (some row.id)
                (some [("model", DetailVal.dstr model), ("language", DetailVal.dstr lang),
                       ("speed", DetailVal.dstr (fmt1 speed ++ "x")),
                       ("text_length", DetailVal.dint text.length),
                       ("segments", DetailVal.dint result.segments)]), [])) st with
          | (st, some e) => (st, some e)
          | (st, none) => (commitT st, none)
      else (st, some (env.writeErr transcript_json))
    else (st, some (env.writeErr transcript_txt))

/-- One iteration of the transcribe loop (transcriber.py lines 70-181).  The
missing-file branch, the running UPDATE and the except handler are outside the
`try`; a raise there aborts with the state reached (third component). -/
def processOne (env : TEnv) (model : String) (acc : TSt × TCounts) (row : Asset) :
    TSt × TCounts × Option String :=
  let (st, counts) := acc
  if ! env.fileExists row.source_path then
    match execStmt env .markSkipped row.id (setStatus env.now row.id .skipped) st with
    | (st, some e) => (st, counts, some e)
    | (st, none) => (commitT st, { counts with skipped := counts.skipped + 1 }, none)
  else
    match execStmt env .markRunning row.id (setStatus env.now row.id .running) st with
    | (st, some e) => (st, counts, some e)
    | (st, none) =>
      let st := commitT st
      match tryBody env model row st with
      | (st, none) =>
        (st, { counts with
               done := counts.done + 1,
               total_seconds := ratAdd counts.total_seconds (row.duration_sec.getD 0) }, none)
      | (st, some e) =>
        match execStmt env .markFailed row.id (setStatus env.now row.id .failed) st with
        | (st, some e2) => (st, counts, some e2)
        | (st, none) =>
          let st := commitT st
          match execStmt env .logFailed row.id
              (fun db => (log_action db "transcribe" "failed" (some row.id)
                (some [("error", DetailVal.dstr e)]), [])) st with
          | (st, some e2) => (st, counts, some e2)
          | (st, none) => (commitT st, { counts with failed := counts.failed + 1 }, none)

/-- WHERE clause of the transcribe selection query: status pending or failed
and duration strictly above 5 seconds (NULL durations are not selected). -/
def eligibleForTranscribe (r : Asset) : Bool :=
  (r.transcript_status == TranscriptStatus.pending ||
   r.transcript_status == TranscriptStatus.failed)
  && (match r.duration_sec with | some d => decide (5 < d) | none => false)

/-- The transcribe selection: eligible rows ordered ascending by duration;
`LIMIT` applies only when the Python limit value is truthy (nonzero). -/
def selectTranscribe (db : DB) (limit : Option Nat) : List Asset :=
  let sorted := List.insertionSort
    (fun a b => optRatLe a.duration_sec b.duration_sec = true)
    (db.asset.filter eligibleForTranscribe)
  match limit with
  | some n => if n = 0 then sorted else sorted.take n
  | none => sorted

/-- One fold step of the transcribe loop: once a raise has escaped, the loop
is over and the batch state passes through unchanged. -/
def transcribeLoopStep (env : TEnv) (model : String)
    (b : TSt × TCounts × Option String) (row : Asset) : TSt × TCounts × Option String :=
  match b with
  | (st, counts, some e) => (st, counts, some e)
  | (st, counts, none) => processOne env model (st, counts) row

/-- Initial run state over a committed database. -/
def initTSt (db : DB) : TSt :=
  { conn := { committed := db, cur := db }, fs := fun _ => none,
    commits := [], calls := [], trans := [] }

/-- Embedding of `transcribe_batch` (transcriber.py): select, return zero
counts when nothing is pending, report only the total duration on a dry run,
and otherwise run the loop; a raise outside the guarded region aborts the
loop with the state it reached. -/
def transcribe_batch (env : TEnv) (model : String) (limit : Option Nat)
    (dry_run : Bool) (db : DB) : TSt × TCounts × Option String :=
  let rows := selectTranscribe db limit
  if rows.isEmpty then
    (initTSt db, { done := 0, failed := 0, skipped := 0, total_seconds := 0 }, none)
  else if dry_run then
    (initTSt db, { done := 0, failed := 0, skipped := 0,
                   total_seconds := rows.foldl (fun acc r => ratAdd acc (r.duration_sec.getD 0)) 0 },
     none)
  else
    rows.foldl (transcribeLoopStep env model)
      (initTSt db, { done := 0, failed := 0, skipped := 0, total_seconds := 0 }, none)

/- ### enricher.py: the enrichment batch -/

/-- `ENRICHMENT_PROMPT.format(transcript=...)`: the prompt template with the
transcript interpolated (the doubled braces of the template render as literal
braces). -/
def enrichmentPrompt (transcript : String) : String :=
  "Analyze this voice memo transcript and extract:\n\n1. **Summary**: 2-3 sentence summary of the main content\n2. **Topics**: List of key topics/themes (comma-separated, max 5)\n3. **People**: Names of people mentioned (comma-separated, or \"none\" if none)\n4. **Sentiment**: Overall emotional tone (positive/negative/neutral/mixed)\n\nTranscript:\n"
  ++ transcript ++
  "\n\nRespond ONLY with valid JSON in this exact format:\n\x7b\n  \"summary\": \"...\",\n  \"topics\": \"topic1, topic2, topic3\",\n  \"people\": \"Person Name, Another Person\",\n  \"sentiment\": \"positive\"\n\x7d"

/-- Environment of an enrich run: the transcript files, a generic read error
(the second `except` of the read), the LLM collaborator keyed by model and
prompt (`call_ollama` catches every exception internally and returns `None`),
and the timestamp. -/
structure EnrEnv where
  fs : String → Option String
  readErr : String → Option String
  ollama : String → String → Option String
  now : String

/-- The dict returned by `enrich_asset`. -/
structure EnrResult where
  status : String
  detail : String
deriving Repr, DecidableEq

/-- Counts returned by `enrich_batch`. -/
structure EnrCounts where
  done : Nat
  failed : Nat
  skipped : Nat
deriving Repr, DecidableEq

/-- Python dict indexing on the parsed object: `json.loads` keeps the last
binding of a duplicated key. -/
def dictGet (k : String) (fields : List (String × Json)) : Option Json :=
  (fields.reverse.find? (fun kv => kv.1 == k)).map (fun kv => kv.2)

/-- The TEXT value the enrichment UPDATE binds for one parsed field.  sqlite3
raises `InterfaceError` on a nested object or array; a JSON string binds
as-is; the TEXT affinity of the column stores a number as its text, a boolean
(a Python int) as 0/1 and null as NULL.  No claim observes the stored text of
a non-string field. -/
def sqliteBindText : Json → Except String (Option String)
  | Json.str s => .ok (some s)
  | Json.num s => .ok (some s)
  | Json.bool b => .ok (some (if b then "1" else "0"))
  | Json.null => .ok none
  | Json.obj _ => .error "InterfaceError"
  | Json.arr _ => .error "InterfaceError"

/-- Embedding of `enrich_asset` (enricher.py): read and strip the transcript,
reject an empty one, truncate past 15000 characters, call the collaborator,
parse defensively, and on success run the UPDATE and commit.  Every failure up
to the parse is caught by the source and returned as a failed dict; the store
execute and commit are modelled reliable, so the only raise that can escape
(`Except.error`) is the sqlite3 parameter bind on a non-bindable field. -/
def enrich_asset (env : EnrEnv) (conn : Conn) (asset_id transcript_path model : String) :
    Conn × Except String EnrResult :=
  match env.readErr transcript_path with
  | some e => (conn, .ok { status := "failed", detail := "read error: " ++ e })
  | none =>
    match env.fs transcript_path with
    | none => (conn, .ok { status := "failed", detail := "transcript file not found" })
    | some raw =>
      let transcript := pyStrip raw.data
      if transcript.isEmpty then
        (conn, .ok { status := "failed", detail := "empty transcript" })
      else
        let transcript := if 15000 < transcript.length
          then transcript.take 15000 ++ "\n\n[...transcript truncated...]".data
          else transcript
        let prompt := enrichmentPrompt (String.mk transcript)
        match env.ollama model prompt with
        | none => (conn, .ok { status := "failed", detail := "ollama call failed" })
        | some response =>
          match parse_enrichment_response response with
          | none => (conn, .ok { status := "failed", detail := "invalid JSON response" })
          | some fields =>
            match sqliteBindText ((dictGet "summary" fields).getD Json.null),
                  sqliteBindText ((dictGet "topics" fields).getD Json.null),
                  sqliteBindText ((dictGet "people" fields).getD Json.null),
                  sqliteBindText ((dictGet "sentiment" fields).getD Json.null) with
            | .ok vsum, .ok vtop, .ok vpeo, .ok vsen =>
              (Conn.commit { conn with cur := { conn.cur with
                 asset := conn.cur.asset.map (fun r =>
                   if r.id = asset_id then
                     { r with
                       summary := vsum, topics := vtop, people := vpeo,
                       sentiment := vsen, enriched_at := some env.now,
                       updated_at := env.now }
                   else r) } },
               .ok { status := "done", detail := "enriched" })
            | _, _, _, _ => (conn, .error "InterfaceError")

/-- The enrich selection predicate: transcribed, not yet enriched, transcript
file recorded. -/
def eligibleForEnrich (r : Asset) : Bool :=
  (r.transcript_status == TranscriptStatus.done)
  && r.summary.isNone && r.transcript_path.isSome

/-- The enrich selection: eligible rows ordered ascending by duration;
`LIMIT` applies only when the Python limit value is truthy (nonzero). -/
def selectEnrich (db : DB) (limit : Option Nat) : List Asset :=
  let sorted := List.insertionSort
    (fun a b => optRatLe a.duration_sec b.duration_sec = true)
    (db.asset.filter eligibleForEnrich)
  match limit with
  | some n => if n = 0 then sorted else sorted.take n
  | none => sorted

/-- One fold step of the enrich loop: the body runs `enrich_asset` with no
`try` around it, counts the returned status, and an escaped raise ends the
loop. -/
def enrichStep (env : EnrEnv) (model : String)
    (b : Conn × EnrCounts × Option String) (row : Asset) : Conn × EnrCounts × Option String :=
  match b with
  | (conn, counts, some e) => (conn, counts, some e)
  | (conn, counts, none) =>
    match enrich_asset env conn row.id (row.transcript_path.getD "") model with
    | (conn2, .ok res) =>
      if res.status = "done" then (conn2, { counts with done := counts.done + 1 }, none)
      else (conn2, { counts with failed := counts.failed + 1 }, none)
    | (conn2, .error e) => (conn2, counts, some e)

/-- Embedding of `enrich_batch` (enricher.py): select, return zero counts when
nothing is pending or on a dry run, and otherwise run the loop; the runner
writes no audit events. -/
def enrich_batch (env : EnrEnv) (limit : Option Nat) (model : String)
    (dry_run : Bool) (conn : Conn) : Conn × EnrCounts × Option String :=
  let rows := selectEnrich conn.cur limit
  if rows.isEmpty then (conn, { done := 0, failed := 0, skipped := 0 }, none)
  else if dry_run then (conn, { done := 0, failed := 0, skipped := 0 }, none)
  else rows.foldl (enrichStep env model) (conn, { done := 0, failed := 0, skipped := 0 }, none)

/-- A connection over an empty store, the base point of the outcome observers
below (the outcome of `enrich_asset` does not depend on the store). -/
def emptyConn : Conn :=
  { committed := { asset := [], action_log := [] }, cur := { asset := [], action_log := [] } }

/-- Whether `enrich_asset` reports this record done, an observer on the
embedding evaluated over the empty store. -/
def enrichOk (env : EnrEnv) (model : String) (r : Asset) : Bool :=
  match (enrich_asset env emptyConn r.id (r.transcript_path.getD "") model).2 with
  | .ok res => decide (res.status = "done")
  | .error _ => false

/-- Whether `enrich_asset` raises on this record, an observer on the
embedding evaluated over the empty store. -/
def enrichRaises (env : EnrEnv) (model : String) (r : Asset) : Bool :=
  match (enrich_asset env emptyConn r.id (r.transcript_path.getD "") model).2 with
  | .ok _ => false
  | .error _ => true

/- ### Concrete fixtures

Fixture records and environments used by the concrete runs below.  Kernel
evaluation of whole publish runs needs a deeper recursion budget. -/

set_option maxRecDepth 200000
set_option maxHeartbeats 4000000

/-- A freshly scanned voice memo (30 s), stage fields at their defaults. -/
def asset_A : Asset :=
  { id := "a1b2c3d4-0001-4000-8000-000000000001",
    source_type := "voice_memo",
    source_path := "/memos/a.m4a",
    filename := "a.m4a",
    title := some "Morning thoughts",
    duration_sec := some 30,
    recorded_at := some "2024-03-01T08:15:00Z",
    file_format := some "m4a",
    file_size_bytes := some 480000,
    scanned_at := "2024-03-02T00:00:00Z",
    updated_at := "2024-03-02T00:00:00Z" }

/-- A second freshly scanned voice memo (600 s). -/
def asset_B : Asset :=
  { asset_A with
    id := "b0000001-0002-4000-8000-000000000002",
    source_path := "/memos/b.m4a", filename := "b.m4a",
    title := some "Long talk", duration_sec := some 600,
    recorded_at := some "2024-03-02T09:00:00Z" }

/-- A record whose earlier transcription failed. -/
def asset_F : Asset :=
  { asset_A with
    id := "f0000001-0003-4000-8000-000000000003",
    source_path := "/memos/f.m4a", filename := "f.m4a",
    title := some "Broken memo", duration_sec := some 45,
    recorded_at := some "2024-03-03T10:00:00Z",
    transcript_status := .failed }

/-- Publish environment in which every vault write succeeds. -/
def pubEnvOk : PubEnv :=
  { fsWriteOk := fun _ => true, writeErr := fun p => "write failed: " ++ p,
    now := "2024-03-02T00:10:00Z" }

/-- Fresh publish state over a committed database and an empty vault. -/
def pubSt0 (db : DB) : PubSt :=
  { conn := { committed := db, cur := db }, fs := fun _ => none, jsonl := [] }

/-- Transcribe environment in which every oracle succeeds. -/
def tEnvOk : TEnv :=
  { fileExists := fun _ => true,
    transcribe := fun _ => .ok { text := " hello world ", segments := 2, language := "en" },
    fsWriteOk := fun _ => true,
    writeErr := fun p => "write failed: " ++ p,
    dbOk := fun _ _ => true,
    elapsedFor := fun _ => 3,
    now := "2024-03-02T01:00:00Z" }

/-- First non-forced publish of the fresh record. -/
def pubRun1 : PubCounts × PubSt × List (String × String) :=
  publish pubEnvOk false (pubSt0 { asset := [asset_A], action_log := [] })

/-- Second non-forced publish, nothing modified in between. -/
def pubRun2 : PubCounts × PubSt × List (String × String) :=
  publish pubEnvOk false pubRun1.2.1

/-- The store after the first publish, with the record's file format modified
(a rendered field that does not enter the note filename) by an external
rescan; stage fields untouched. -/
def dbModified : DB :=
  { asset := pubRun1.2.1.conn.committed.asset.map (fun r => { r with file_format := some "wav" }),
    action_log := pubRun1.2.1.conn.committed.action_log }

/-- Non-forced publish after the modification (vault carried over). -/
def pubRun3 : PubCounts × PubSt × List (String × String) :=
  publish pubEnvOk false
    { conn := { committed := dbModified, cur := dbModified },
      fs := pubRun2.2.1.fs, jsonl := pubRun2.2.1.jsonl }

/-- Forced publish after the modification (vault carried over). -/
def pubRun3f : PubCounts × PubSt × List (String × String) :=
  publish pubEnvOk true
    { conn := { committed := dbModified, cur := dbModified },
      fs := pubRun2.2.1.fs, jsonl := pubRun2.2.1.jsonl }

/-- The record with the modified file format, as a standalone value. -/
def asset_A_mod : Asset := { asset_A with file_format := some "wav" }

/-- A rescanned candidate for the same identity with a new title and a new
duration, used by the upsert witnesses. -/
def asset_A_newmeta : Asset :=
  { asset_A with title := some "Evening thoughts", duration_sec := some 31 }

/-- First of five transcribed, unenriched records. -/
def asset_E1 : Asset :=
  { asset_A with
    id := "e0000001-0011-4000-8000-000000000011",
    source_path := "/memos/e1.m4a", filename := "e1.m4a",
    title := some "Enrich one", duration_sec := some 10,
    transcript_status := .done, transcript_path := some "/tr/e1.txt" }

/-- Second enrich candidate. -/
def asset_E2 : Asset :=
  { asset_E1 with
    id := "e0000002-0012-4000-8000-000000000012",
    source_path := "/memos/e2.m4a", filename := "e2.m4a",
    title := some "Enrich two", duration_sec := some 11,
    transcript_path := some "/tr/e2.txt" }

/-- Third enrich candidate, the one whose collaborator call will fail. -/
def asset_E3 : Asset :=
  { asset_E1 with
    id := "e0000003-0013-4000-8000-000000000013",
    source_path := "/memos/e3.m4a", filename := "e3.m4a",
    title := some "Enrich three", duration_sec := some 12,
    transcript_path := some "/tr/e3.txt" }

/-- Fourth enrich candidate. -/
def asset_E4 : Asset :=
  { asset_E1 with
    id := "e0000004-0014-4000-8000-000000000014",
    source_path := "/memos/e4.m4a", filename := "e4.m4a",
    title := some "Enrich four", duration_sec := some 13,
    transcript_path := some "/tr/e4.txt" }

/-- Fifth enrich candidate. -/
def asset_E5 : Asset :=
  { asset_E1 with
    id := "e0000005-0015-4000-8000-000000000015",
    source_path := "/memos/e5.m4a", filename := "e5.m4a",
    title := some "Enrich five", duration_sec := some 14,
    transcript_path := some "/tr/e5.txt" }

/-- A collaborator response wrapping the structured text in extraneous prose. -/
def goodEnrichResponse : String :=
  "Sure! \x7b\"summary\": \"A short note\", \"topics\": \"life\", \"people\": \"none\", \"sentiment\": \"neutral\"\x7d Hope that helps."

/-- The store holding the five enrich candidates. -/
def dbEnrich : DB :=
  { asset := [asset_E1, asset_E2, asset_E3, asset_E4, asset_E5], action_log := [] }

/-- A connection over the five candidates. -/
def connEnrich : Conn := { committed := dbEnrich, cur := dbEnrich }

/-- Enrich environment in which exactly the third candidate's collaborator
call fails (its transcript yields a distinct prompt); every other call
returns the wrapped response. -/
def enrEnvFail3 : EnrEnv :=
  { fs := fun p => if p == "/tr/e3.txt" then some "hard one" else some " hello world ",
    readErr := fun _ => none,
    ollama := fun _ prompt =>
      if prompt == enrichmentPrompt "hard one" then none else some goodEnrichResponse,
    now := "2024-03-05T00:00:00Z" }

/-- Publish environment in which exactly the first record's vault write
fails. -/
def pubEnvFailA : PubEnv :=
  { pubEnvOk with fsWriteOk := fun p => !(p == "voice/" ++ asset_A.note_filename) }

/-- A store with two never-published records. -/
def dbPubAB : DB := { asset := [asset_A, asset_B], action_log := [] }

/- ### Claims about the upsert (C5, C6) -/

/-- Rows rewritten by an id-preserving update are found at the same position. -/
theorem find?_map_preserve (c : String) (f : Asset → Asset)
    (hf : ∀ r, (f r).id = r.id) :
    ∀ l : List Asset, List.find? (fun r => r.id == c) (l.map f) =
      (List.find? (fun r => r.id == c) l).map f := by
  intro l
  induction l with
  | nil => rfl
  | cons a l ih =>
    by_cases h : a.id = c
    · rw [List.map_cons, List.find?_cons_of_pos, List.find?_cons_of_pos]
      · rfl
      · simpa using h
      · simpa [hf a] using h
    · rw [List.map_cons, List.find?_cons_of_neg, List.find?_cons_of_neg l (by simpa using h)]
      · exact ih
      · simpa [hf a] using h

/-- An upsert whose lookup hits a row agreeing on title, duration and
recorded-at returns "skip" and leaves the table untouched. -/
theorem upsert_skip_of_match (now : String) (t : List Asset) (c e : Asset)
    (hfind : t.find? (fun r => r.id == c.id) = some e)
    (heq : e.title = c.title ∧ e.duration_sec = c.duration_sec ∧ e.recorded_at = c.recorded_at) :
    upsert_asset now t c = ("skip", t) := by
  simp only [upsert_asset, hfind]
  rw [if_pos heq]

/-- C5.  Idempotent upsert: from a store in which the candidate's row is
absent or differs in one of the three compared columns, the first
`upsert_asset` returns "insert" or "update", the second returns "skip", and
the second call leaves the table exactly as the first call left it. -/
theorem upsert_idempotent_second_skip (now1 now2 : String) (table : List Asset) (c : Asset)
    (h : ∀ e, table.find? (fun r => r.id == c.id) = some e →
      ¬(e.title = c.title ∧ e.duration_sec = c.duration_sec ∧ e.recorded_at = c.recorded_at)) :
    ((upsert_asset now1 table c).1 = "insert" ∨ (upsert_asset now1 table c).1 = "update") ∧
    (upsert_asset now2 (upsert_asset now1 table c).2 c).1 = "skip" ∧
    (upsert_asset now2 (upsert_asset now1 table c).2 c).2 = (upsert_asset now1 table c).2 := by
  cases hf : table.find? (fun r => r.id == c.id) with
  | none =>
    have h1 : upsert_asset now1 table c =
        ("insert", table ++ [{ id := c.id, source_type := c.source_type,
                               source_path := c.source_path, filename := c.filename,
                               title := c.title, duration_sec := c.duration_sec,
                               recorded_at := c.recorded_at, file_format := c.file_format,
                               file_size_bytes := c.file_size_bytes,
                               apple_audio_digest := c.apple_audio_digest,
                               scanned_at := now1, updated_at := now1 }]) := by
      simp only [upsert_asset, hf]
    have h2 : (upsert_asset now1 table c).2.find? (fun r => r.id == c.id) =
        some { id := c.id, source_type := c.source_type,
               source_path := c.source_path, filename := c.filename,
               title := c.title, duration_sec := c.duration_sec,
               recorded_at := c.recorded_at, file_format := c.file_format,
               file_size_bytes := c.file_size_bytes,
               apple_audio_digest := c.apple_audio_digest,
               scanned_at := now1, updated_at := now1 } := by
      rw [h1, List.find?_append, hf]
      simp [List.find?]
    have hskip := upsert_skip_of_match now2 _ c _ h2 ⟨rfl, rfl, rfl⟩
    exact ⟨Or.inl (by rw [h1]), by rw [hskip], by rw [hskip]⟩
  | some e =>
    have hne := h e hf
    have hid : e.id = c.id := by
      have := List.find?_some hf
      simpa using this
    have h1 : upsert_asset now1 table c =
        ("update", table.map (fun r =>
          if r.id = c.id then
            { r with
              source_path := c.source_path, filename := c.filename,
              title := c.title, duration_sec := c.duration_sec,
              recorded_at := c.recorded_at, file_format := c.file_format,
              file_size_bytes := c.file_size_bytes,
              apple_audio_digest := c.apple_audio_digest,
              updated_at := now1 }
          else r)) := by
      simp only [upsert_asset, hf]
      rw [if_neg hne]
    have hpres : ∀ r : Asset, ((fun r =>
        if r.id = c.id then
          { r with
            source_path := c.source_path, filename := c.filename,
            title := c.title, duration_sec := c.duration_sec,
            recorded_at := c.recorded_at, file_format := c.file_format,
            file_size_bytes := c.file_size_bytes,
            apple_audio_digest := c.apple_audio_digest,
            updated_at := now1 }
        else r) r).id = r.id := by
      intro r
      by_cases hr : r.id = c.id <;> simp [hr]
    have h2 : (upsert_asset now1 table c).2.find? (fun r => r.id == c.id) =
        some { e with
               source_path := c.source_path, filename := c.filename,
               title := c.title, duration_sec := c.duration_sec,
               recorded_at := c.recorded_at, file_format := c.file_format,
               file_size_bytes := c.file_size_bytes,
               apple_audio_digest := c.apple_audio_digest,
               updated_at := now1 } := by
      rw [h1]
      rw [find?_map_preserve c.id _ hpres table, hf]
      simp [hid]
    have hskip := upsert_skip_of_match now2 _ c _ h2 ⟨rfl, rfl, rfl⟩
    exact ⟨Or.inr (by rw [h1]), by rw [hskip], by rw [hskip]⟩

/-- Witness for C5 at a concrete input: the store holds an unrelated record,
the candidate is fresh, so the first call inserts and the second skips. -/
theorem upsert_idempotent_second_skip_witness :
    (∀ e, List.find? (fun r => r.id == asset_A.id) [asset_B] = some e →
      ¬(e.title = asset_A.title ∧ e.duration_sec = asset_A.duration_sec ∧
        e.recorded_at = asset_A.recorded_at)) ∧
    (((upsert_asset "t1" [asset_B] asset_A).1 = "insert" ∨
      (upsert_asset "t1" [asset_B] asset_A).1 = "update") ∧
     (upsert_asset "t2" (upsert_asset "t1" [asset_B] asset_A).2 asset_A).1 = "skip" ∧
     (upsert_asset "t2" (upsert_asset "t1" [asset_B] asset_A).2 asset_A).2 =
       (upsert_asset "t1" [asset_B] asset_A).2) := by
  refine ⟨?_, upsert_idempotent_second_skip "t1" "t2" [asset_B] asset_A ?_⟩ <;>
  · intro e he
    rw [show List.find? (fun r => r.id == asset_A.id) [asset_B] = none from by decide] at he
    cases he

/-- C6.  Upsert frame condition: when the candidate's id exists and one of
title, duration or recorded-at differs, the result is "update" and, row by
row, rows with other ids are untouched while the matching row receives
exactly the eight source-derived columns and keeps every stage column
(transcription, enrichment, publication and scan bookkeeping). -/
theorem upsert_update_frame (now : String) (table : List Asset) (c e : Asset)
    (hfind : table.find? (fun r => r.id == c.id) = some e)
    (hdiff : ¬(e.title = c.title ∧ e.duration_sec = c.duration_sec ∧
      e.recorded_at = c.recorded_at)) :
    (upsert_asset now table c).1 = "update" ∧
    List.Forall₂ (fun row row' =>
      (row.id ≠ c.id → row' = row) ∧
      (row.id = c.id →
        row'.source_path = c.source_path ∧ row'.filename = c.filename ∧
        row'.title = c.title ∧ row'.duration_sec = c.duration_sec ∧
        row'.recorded_at = c.recorded_at ∧ row'.file_format = c.file_format ∧
        row'.file_size_bytes = c.file_size_bytes ∧
        row'.apple_audio_digest = c.apple_audio_digest ∧
        row'.transcript_status = row.transcript_status ∧
        row'.transcript_model = row.transcript_model ∧
        row'.transcript_lang = row.transcript_lang ∧
        row'.transcript_at = row.transcript_at ∧
        row'.transcript_path = row.transcript_path ∧
        row'.summary = row.summary ∧ row'.topics = row.topics ∧
        row'.people = row.people ∧ row'.sentiment = row.sentiment ∧
        row'.enriched_at = row.enriched_at ∧ row'.note_path = row.note_path ∧
        row'.published_at = row.published_at ∧ row'.note_hash = row.note_hash ∧
        row'.scanned_at = row.scanned_at))
      table (upsert_asset now table c).2 := by
  have h1 : upsert_asset now table c =
      ("update", table.map (fun r =>
        if r.id = c.id then
          { r with
            source_path := c.source_path, filename := c.filename,
            title := c.title, duration_sec := c.duration_sec,
            recorded_at := c.recorded_at, file_format := c.file_format,
            file_size_bytes := c.file_size_bytes,
            apple_audio_digest := c.apple_audio_digest,
            updated_at := now }
        else r)) := by
    simp only [upsert_asset, hfind]
    rw [if_neg hdiff]
  refine ⟨by rw [h1], ?_⟩
  rw [h1]
  rw [List.forall₂_map_right_iff]
  rw [List.forall₂_same]
  intro row _
  constructor
  · intro hne
    rw [if_neg hne]
  · intro hid
    rw [if_pos hid]
    exact ⟨rfl, rfl, rfl, rfl, rfl, rfl, rfl, rfl, rfl, rfl, rfl, rfl, rfl, rfl,
           rfl, rfl, rfl, rfl, rfl, rfl, rfl, rfl⟩

/-- The stored version of the first record after transcription and
publication, used as the pre-state of the C6 witness. -/
def asset_A_staged : Asset :=
  { asset_A with
    transcript_status := .done, transcript_model := some "mlx-community/whisper-turbo",
    transcript_lang := some "en", transcript_at := some "2024-03-02T01:00:00Z",
    transcript_path := some "transcripts/a.txt", summary := some "A short reflection.",
    topics := some "work", people := some "none", sentiment := some "positive",
    enriched_at := some "2024-03-02T02:00:00Z",
    note_path := some "MemoryAtlas/voice/a.md", published_at := some "2024-03-02T03:00:00Z",
    note_hash := some "dc9bc9c67aea2800" }

/-- Witness for C6 at a concrete input: the stored row is the transcribed,
enriched and published version of the record; the candidate has a new title
and duration. -/
theorem upsert_update_frame_witness :
    (List.find? (fun r => r.id == asset_A_newmeta.id) [asset_A_staged] = some asset_A_staged) ∧
    ¬(asset_A_staged.title = asset_A_newmeta.title ∧
      asset_A_staged.duration_sec = asset_A_newmeta.duration_sec ∧
      asset_A_staged.recorded_at = asset_A_newmeta.recorded_at) ∧
    (upsert_asset "t3" [asset_A_staged] asset_A_newmeta).1 = "update" ∧
    List.Forall₂ (fun row row' =>
      (row.id ≠ asset_A_newmeta.id → row' = row) ∧
      (row.id = asset_A_newmeta.id →
        row'.source_path = asset_A_newmeta.source_path ∧ row'.filename = asset_A_newmeta.filename ∧
        row'.title = asset_A_newmeta.title ∧ row'.duration_sec = asset_A_newmeta.duration_sec ∧
        row'.recorded_at = asset_A_newmeta.recorded_at ∧ row'.file_format = asset_A_newmeta.file_format ∧
        row'.file_size_bytes = asset_A_newmeta.file_size_bytes ∧
        row'.apple_audio_digest = asset_A_newmeta.apple_audio_digest ∧
        row'.transcript_status = row.transcript_status ∧
        row'.transcript_model = row.transcript_model ∧
        row'.transcript_lang = row.transcript_lang ∧
        row'.transcript_at = row.transcript_at ∧
        row'.transcript_path = row.transcript_path ∧
        row'.summary = row.summary ∧ row'.topics = row.topics ∧
        row'.people = row.people ∧ row'.sentiment = row.sentiment ∧
        row'.enriched_at = row.enriched_at ∧ row'.note_path = row.note_path ∧
        row'.published_at = row.published_at ∧ row'.note_hash = row.note_hash ∧
        row'.scanned_at = row.scanned_at))
      [asset_A_staged] (upsert_asset "t3" [asset_A_staged] asset_A_newmeta).2 := by
  have h := upsert_update_frame "t3" [asset_A_staged] asset_A_newmeta asset_A_staged
    (by decide) (by decide)
  exact ⟨by decide, by decide, h.1, h.2⟩

/- ### Claim about enrichment parsing (C9) -/

/-- C9.  Defensive enrichment parsing: `parse_enrichment_response` succeeds
only by slicing the response from the first opening brace to the last closing
brace, parsing that slice as JSON into an object, and checking that all four
required fields are present (first conjunct, soundness); a valid structure
wrapped in extraneous prose parses successfully (second conjunct); a
structure missing a required field is rejected (third conjunct). -/
theorem enrichment_parse_defensive :
    (∀ (response : String) (fields : List (String × Json)),
      parse_enrichment_response response = some fields →
      ∃ s e, firstIdx lbrace response.data = some s ∧
        lastIdx rbrace response.data = some e ∧
        jsonLoads (String.mk ((response.data.drop s).take (e + 1 - s))) = some (Json.obj fields) ∧
        ∀ k ∈ requiredFields, fields.any (fun kv => kv.1 = k) = true) ∧
    parse_enrichment_response
        "Sure! \x7b\"summary\": \"A reflection.\", \"topics\": \"work, family\", \"people\": \"none\", \"sentiment\": \"positive\"\x7d Hope that helps." =
      some [("summary", Json.str "A reflection."), ("topics", Json.str "work, family"),
            ("people", Json.str "none"), ("sentiment", Json.str "positive")] ∧
    parse_enrichment_response "Sure! \x7b\"summary\": \"A reflection.\"\x7d Hope that helps." =
      none := by
  refine ⟨?_, rfl, rfl⟩
  intro response fields hp
  simp only [parse_enrichment_response] at hp
  cases h1 : firstIdx lbrace response.data with
  | none => rw [h1] at hp; simp at hp
  | some s =>
    cases h2 : lastIdx rbrace response.data with
    | none => rw [h1, h2] at hp; simp at hp
    | some e =>
      simp only [h1, h2] at hp
      refine ⟨s, e, rfl, rfl, ?_⟩
      cases h3 : jsonLoads (String.mk ((response.data.drop s).take (e + 1 - s))) with
      | none => rw [h3] at hp; simp at hp
      | some v =>
        rw [h3] at hp
        cases v with
        | obj kvs =>
          have hp2 : (if (requiredFields.all fun k => kvs.any fun kv => decide (kv.1 = k)) = true
              then some kvs else (none : Option (List (String × Json)))) = some fields := hp
          by_cases hall : (requiredFields.all fun k => kvs.any fun kv => decide (kv.1 = k)) = true
          · rw [if_pos hall] at hp2
            cases hp2
            exact ⟨rfl, by simpa [List.all_eq_true] using hall⟩
          · rw [if_neg hall] at hp2
            cases hp2
        | null => exact absurd hp (by simp)
        | bool b => exact absurd hp (by simp)
        | num s => exact absurd hp (by simp)
        | str s => exact absurd hp (by simp)
        | arr xs => exact absurd hp (by simp)

/- ### Claim about transcribe selection (C7) -/

/-- Totality of the nullable-REAL ordering. -/
theorem optRatLe_total (a b : Option ℚ) : optRatLe a b = true ∨ optRatLe b a = true := by
  cases a <;> cases b <;> simp [optRatLe]
  exact le_total _ _

/-- Transitivity of the nullable-REAL ordering. -/
theorem optRatLe_trans {a b c : Option ℚ} (h1 : optRatLe a b = true)
    (h2 : optRatLe b c = true) : optRatLe a c = true := by
  cases a <;> cases b <;> cases c <;> simp [optRatLe] at h1 h2 ⊢
  exact le_trans h1 h2

/-- C7.  Transcribe selection and order: the selection contains exactly the
rows whose status is pending or failed with duration above the threshold
(first conjunct), is ordered ascending by duration (second conjunct); with a
30 s and a 600 s pending record the 30 s one comes first in the selection and
is the first sent to the external collaborator (last two conjuncts). -/
theorem transcribe_selection_order :
    (∀ (db : DB) (r : Asset),
      r ∈ selectTranscribe db none ↔ r ∈ db.asset ∧ eligibleForTranscribe r = true) ∧
    (∀ db : DB, (selectTranscribe db none).Pairwise
      (fun a b => optRatLe a.duration_sec b.duration_sec = true)) ∧
    selectTranscribe { asset := [asset_B, asset_A], action_log := [] } none = [asset_A, asset_B] ∧
    (transcribe_batch tEnvOk "mlx-community/whisper-turbo" none false
      { asset := [asset_B, asset_A], action_log := [] }).1.calls = [asset_A.id, asset_B.id] := by
  refine ⟨?_, ?_, by decide⟩
  · intro db r
    simp only [selectTranscribe]
    rw [(List.perm_insertionSort _ _).mem_iff]
    exact List.mem_filter
  · intro db
    haveI : IsTotal Asset (fun a b => optRatLe a.duration_sec b.duration_sec = true) :=
      ⟨fun a b => optRatLe_total _ _⟩
    haveI : IsTrans Asset (fun a b => optRatLe a.duration_sec b.duration_sec = true) :=
      ⟨fun _ _ _ => optRatLe_trans⟩
    simp only [selectTranscribe]
    exact List.sorted_insertionSort _ _

/- ### Claim about the missing-source branch (C8) -/

/-- C8.  Missing source file: when the source file of the processed record
does not exist, the loop body raises nothing (so the batch continues with the
next record), counts the record as skipped — not failed —, performs no call
to the external transcription collaborator, and both the current and the
committed store show the record as skipped. -/
theorem missing_source_marks_skipped (env : TEnv) (model : String) (st : TSt)
    (counts : TCounts) (row : Asset)
    (hmiss : env.fileExists row.source_path = false)
    (hdb : env.dbOk .markSkipped row.id = true) :
    (processOne env model (st, counts) row).2.2 = none ∧
    (processOne env model (st, counts) row).2.1 =
      { counts with skipped := counts.skipped + 1 } ∧
    (processOne env model (st, counts) row).1.calls = st.calls ∧
    (∀ r ∈ (processOne env model (st, counts) row).1.conn.cur.asset,
      r.id = row.id → r.transcript_status = .skipped) ∧
    (∀ r ∈ (processOne env model (st, counts) row).1.conn.committed.asset,
      r.id = row.id → r.transcript_status = .skipped) := by
  have hstep : processOne env model (st, counts) row =
      (commitT { st with
                 conn := { st.conn with cur := (setStatus env.now row.id .skipped st.conn.cur).1 },
                 trans := st.trans ++ (setStatus env.now row.id .skipped st.conn.cur).2 },
       { counts with skipped := counts.skipped + 1 }, none) := by
    simp only [processOne, execStmt, hmiss, hdb, Bool.not_false, if_true]
  have hmem : ∀ r ∈ (setStatus env.now row.id .skipped st.conn.cur).1.asset,
      r.id = row.id → r.transcript_status = .skipped := by
    intro r hr hid
    simp only [setStatus, List.mem_map] at hr
    obtain ⟨a, _, rfl⟩ := hr
    by_cases h : a.id = row.id
    · simp [h]
    · rw [if_neg h] at hid ⊢
      exact absurd hid h
  rw [hstep]
  exact ⟨rfl, rfl, rfl, hmem, hmem⟩

/-- Witness for C8 at a concrete input: a selected record whose source file is
missing while the store accepts the skip UPDATE. -/
theorem missing_source_marks_skipped_witness :
    ({ tEnvOk with fileExists := fun _ => false } : TEnv).fileExists asset_A.source_path = false ∧
    ({ tEnvOk with fileExists := fun _ => false } : TEnv).dbOk .markSkipped asset_A.id = true ∧
    ((processOne { tEnvOk with fileExists := fun _ => false } "m"
        (initTSt { asset := [asset_A], action_log := [] },
         { done := 0, failed := 0, skipped := 0, total_seconds := 0 }) asset_A).2.2 = none ∧
     (processOne { tEnvOk with fileExists := fun _ => false } "m"
        (initTSt { asset := [asset_A], action_log := [] },
         { done := 0, failed := 0, skipped := 0, total_seconds := 0 }) asset_A).2.1 =
       { done := 0, failed := 0, skipped := 0 + 1, total_seconds := 0 } ∧
     (processOne { tEnvOk with fileExists := fun _ => false } "m"
        (initTSt { asset := [asset_A], action_log := [] },
         { done := 0, failed := 0, skipped := 0, total_seconds := 0 }) asset_A).1.calls =
       (initTSt { asset := [asset_A], action_log := [] }).calls ∧
     (∀ r ∈ (processOne { tEnvOk with fileExists := fun _ => false } "m"
        (initTSt { asset := [asset_A], action_log := [] },
         { done := 0, failed := 0, skipped := 0, total_seconds := 0 }) asset_A).1.conn.cur.asset,
       r.id = asset_A.id → r.transcript_status = .skipped) ∧
     (∀ r ∈ (processOne { tEnvOk with fileExists := fun _ => false } "m"
        (initTSt { asset := [asset_A], action_log := [] },
         { done := 0, failed := 0, skipped := 0, total_seconds := 0 }) asset_A).1.conn.committed.asset,
       r.id = asset_A.id → r.transcript_status = .skipped)) := by
  have h := missing_source_marks_skipped { tEnvOk with fileExists := fun _ => false } "m"
    (initTSt { asset := [asset_A], action_log := [] })
    { done := 0, failed := 0, skipped := 0, total_seconds := 0 } asset_A rfl rfl
  exact ⟨rfl, rfl, h.1, h.2.1, h.2.2.1, h.2.2.2.1, h.2.2.2.2⟩

/- ### Claims about stage isolation (C4) -/

/-- When every store statement succeeds, one loop iteration never raises and
settles the record into exactly one of the three outcome counters. -/
theorem processOne_no_abort (env : TEnv) (model : String) (st : TSt) (counts : TCounts)
    (row : Asset) (hdb : ∀ s a, env.dbOk s a = true) :
    (processOne env model (st, counts) row).2.2 = none ∧
    (processOne env model (st, counts) row).2.1.done +
      (processOne env model (st, counts) row).2.1.failed +
      (processOne env model (st, counts) row).2.1.skipped =
      counts.done + counts.failed + counts.skipped + 1 := by
  unfold processOne tryBody execStmt
  simp only [hdb, if_true]
  repeat' split
  all_goals refine ⟨rfl, ?_⟩
  all_goals try simp
  all_goals omega

/-- Fold form of the previous lemma over a whole row list. -/
theorem transcribeLoop_no_abort (env : TEnv) (model : String)
    (hdb : ∀ s a, env.dbOk s a = true) :
    ∀ (rows : List Asset) (st : TSt) (counts : TCounts),
    (rows.foldl (transcribeLoopStep env model) (st, counts, none)).2.2 = none ∧
    (rows.foldl (transcribeLoopStep env model) (st, counts, none)).2.1.done +
      (rows.foldl (transcribeLoopStep env model) (st, counts, none)).2.1.failed +
      (rows.foldl (transcribeLoopStep env model) (st, counts, none)).2.1.skipped =
      counts.done + counts.failed + counts.skipped + rows.length := by
  intro rows
  induction rows with
  | nil => intro st counts; exact ⟨rfl, rfl⟩
  | cons r rest ih =>
    intro st counts
    rw [List.foldl_cons]
    have hstep := processOne_no_abort env model st counts r hdb
    have hfirst : transcribeLoopStep env model (st, counts, none) r =
        processOne env model (st, counts) r := rfl
    rw [hfirst]
    rcases hpo : processOne env model (st, counts) r with ⟨st2, counts2, o⟩
    rw [hpo] at hstep
    cases o with
    | some e => cases hstep.1
    | none =>
      have hsum : counts2.done + counts2.failed + counts2.skipped =
          counts.done + counts.failed + counts.skipped + 1 := hstep.2
      have hih := ih st2 counts2
      have hih1 := hih.1
      have hih2 := hih.2
      rw [List.length_cons]
      exact ⟨hih1, by omega⟩

/-- `log_action` touches only the action log. -/
theorem log_action_asset (db : DB) (c a : String) (i : Option String)
    (d : Option (List (String × DetailVal))) : (log_action db c a i d).asset = db.asset := rfl

/-- The publish selections read only the asset table, so logging the start
event does not change them. -/
theorem get_unpublished_log (db : DB) (c a : String) (i : Option String)
    (d : Option (List (String × DetailVal))) :
    get_unpublished_assets (log_action db c a i d) = get_unpublished_assets db := by
  unfold get_unpublished_assets
  rw [log_action_asset]

/-- The forced selection is likewise unchanged by the start event. -/
theorem get_all_log (db : DB) (c a : String) (i : Option String)
    (d : Option (List (String × DetailVal))) :
    get_all_assets (log_action db c a i d) = get_all_assets db := by
  unfold get_all_assets
  rw [log_action_asset]

/-- One publish iteration settles its record into exactly one of the four
counters; the `except` branch catches the only fallible per-record operation. -/
theorem publishStep_counts (env : PubEnv) (force : Bool) (st : PubSt)
    (counts : PubCounts) (w : List (String × String)) (row : Asset) :
    (publishStep env force (st, counts, w) row).2.1.created +
    (publishStep env force (st, counts, w) row).2.1.updated +
    (publishStep env force (st, counts, w) row).2.1.skipped +
    (publishStep env force (st, counts, w) row).2.1.error =
    counts.created + counts.updated + counts.skipped + counts.error + 1 := by
  simp only [publishStep]
  repeat' split
  all_goals simp
  all_goals omega

/-- Fold form of the previous lemma over a whole row list. -/
theorem publishLoop_counts (env : PubEnv) (force : Bool) :
    ∀ (rows : List Asset) (st : PubSt) (counts : PubCounts) (w : List (String × String)),
    (rows.foldl (publishStep env force) (st, counts, w)).2.1.created +
    (rows.foldl (publishStep env force) (st, counts, w)).2.1.updated +
    (rows.foldl (publishStep env force) (st, counts, w)).2.1.skipped +
    (rows.foldl (publishStep env force) (st, counts, w)).2.1.error =
    counts.created + counts.updated + counts.skipped + counts.error + rows.length := by
  intro rows
  induction rows with
  | nil => intro st counts w; simp
  | cons r rest ih =>
    intro st counts w
    rw [List.foldl_cons]
    have hstep := publishStep_counts env force st counts w r
    rcases hps : publishStep env force (st, counts, w) r with ⟨st2, counts2, w2⟩
    rw [hps] at hstep
    simp only at hstep
    have hih := ih st2 counts2 w2
    rw [List.length_cons]
    omega

/-- Every selected record of a publish run lands in exactly one of the four
counters: no per-record failure escapes the loop. -/
theorem publish_counts (penv : PubEnv) (force : Bool) (pst : PubSt) :
    (publish penv force pst).1.created + (publish penv force pst).1.updated +
    (publish penv force pst).1.skipped + (publish penv force pst).1.error =
    (if force then get_all_assets pst.conn.cur else get_unpublished_assets pst.conn.cur).length := by
  simp only [publish]
  rw [publishLoop_counts penv force]
  cases force
  · simp [get_unpublished_log]
  · simp [get_all_log]

/-- The result component of `enrich_asset` does not depend on the store: all
scrutinees on the way to it are oracle calls on the transcript path. -/
theorem enrich_asset_result_const (env : EnrEnv) (c c2 : Conn) (i t m : String) :
    (enrich_asset env c i t m).2 = (enrich_asset env c2 i t m).2 := by
  simp only [enrich_asset]
  repeat' split
  all_goals rfl

/-- One enrich iteration that does not raise counts its record by its own
outcome, independently of the store it runs over. -/
theorem enrichStep_eq (env : EnrEnv) (m : String) (conn : Conn) (counts : EnrCounts)
    (row : Asset) (hr : enrichRaises env m row = false) :
    enrichStep env m (conn, counts, none) row =
      ((enrich_asset env conn row.id (row.transcript_path.getD "") m).1,
       (if enrichOk env m row then { counts with done := counts.done + 1 }
        else { counts with failed := counts.failed + 1 }),
       none) := by
  have hconst := enrich_asset_result_const env conn emptyConn row.id
    (row.transcript_path.getD "") m
  have hred : enrichStep env m (conn, counts, none) row =
      (match enrich_asset env conn row.id (row.transcript_path.getD "") m with
       | (conn2, Except.ok res) =>
         if res.status = "done" then (conn2, { counts with done := counts.done + 1 }, none)
         else (conn2, { counts with failed := counts.failed + 1 }, none)
       | (conn2, Except.error e) => (conn2, counts, some e)) := rfl
  rcases h : enrich_asset env conn row.id (row.transcript_path.getD "") m with ⟨c2, res⟩
  have hres : (enrich_asset env emptyConn row.id (row.transcript_path.getD "") m).2 = res := by
    rw [← hconst, h]
  unfold enrichRaises at hr
  rw [hres] at hr
  unfold enrichOk
  rw [hres]
  rw [hred, h]
  cases res with
  | error e => simp at hr
  | ok res =>
    by_cases hs : res.status = "done"
    · simp [hs]
    · simp [hs]

/-- Fold invariant of the enrich loop: when no record raises, the loop never
aborts and each record is counted done or failed by its own outcome. -/
theorem enrichLoop_counts (env : EnrEnv) (m : String) :
    ∀ (rows : List Asset) (conn : Conn) (counts : EnrCounts),
    (∀ r ∈ rows, enrichRaises env m r = false) →
    (rows.foldl (enrichStep env m) (conn, counts, none)).2.2 = none ∧
    (rows.foldl (enrichStep env m) (conn, counts, none)).2.1.done =
      counts.done + (rows.filter (fun r => enrichOk env m r)).length ∧
    (rows.foldl (enrichStep env m) (conn, counts, none)).2.1.failed =
      counts.failed + (rows.filter (fun r => !(enrichOk env m r))).length ∧
    (rows.foldl (enrichStep env m) (conn, counts, none)).2.1.skipped = counts.skipped := by
  intro rows
  induction rows with
  | nil => intro conn counts _; exact ⟨rfl, by simp, by simp, rfl⟩
  | cons r rest ih =>
    intro conn counts hall
    rw [List.foldl_cons, enrichStep_eq env m conn counts r (hall r (by simp))]
    have hrest : ∀ x ∈ rest, enrichRaises env m x = false :=
      fun x hx => hall x (by simp [hx])
    by_cases hok : enrichOk env m r = true
    · rw [if_pos hok]
      have hih := ih ((enrich_asset env conn r.id (r.transcript_path.getD "") m).1)
        { counts with done := counts.done + 1 } hrest
      refine ⟨hih.1, ?_, ?_, hih.2.2.2⟩
      · rw [hih.2.1]
        simp [List.filter_cons, hok]
        all_goals omega
      · rw [hih.2.2.1]
        simp [List.filter_cons, hok]
    · rw [if_neg hok]
      have hih := ih ((enrich_asset env conn r.id (r.transcript_path.getD "") m).1)
        { counts with failed := counts.failed + 1 } hrest
      refine ⟨hih.1, ?_, ?_, hih.2.2.2⟩
      · rw [hih.2.1]
        simp [List.filter_cons, hok]
      · rw [hih.2.2.1]
        simp [List.filter_cons, hok]
        all_goals omega

/-- Isolation of the enrich runner: when no record hits the one modelled
raise, the batch processes every selected record, counting each done or
failed by its own outcome, and never increments skipped. -/
theorem enrich_batch_counts (eenv : EnrEnv) (elim : Option Nat) (em : String) (conn : Conn)
    (hall : ∀ r ∈ selectEnrich conn.cur elim, enrichRaises eenv em r = false) :
    (enrich_batch eenv elim em false conn).2.2 = none ∧
    (enrich_batch eenv elim em false conn).2.1.done =
      ((selectEnrich conn.cur elim).filter (fun r => enrichOk eenv em r)).length ∧
    (enrich_batch eenv elim em false conn).2.1.failed =
      ((selectEnrich conn.cur elim).filter (fun r => !(enrichOk eenv em r))).length ∧
    (enrich_batch eenv elim em false conn).2.1.skipped = 0 := by
  simp only [enrich_batch]
  by_cases hemp : (selectEnrich conn.cur elim).isEmpty
  · rw [if_pos hemp, List.isEmpty_iff.mp hemp]
    exact ⟨rfl, rfl, rfl, rfl⟩
  · rw [if_neg hemp]
    simp only [Bool.false_eq_true, if_false]
    have h := enrichLoop_counts eenv em (selectEnrich conn.cur elim) conn
      { done := 0, failed := 0, skipped := 0 } hall
    simpa using h

/-- C4 (amended).  Stage isolation holds in all three stage runners for every
per-record failure short of the store layer.  Transcribe: when every store
statement succeeds, no per-record failure (collaborator raise, missing file,
artifact write failure) escapes the loop and every selected record lands in
exactly one of the done/failed/skipped counters.  Enrich: provided no parsed
field is of a non-bindable type (the one store raise, which sits outside any
`try`), the batch never aborts and counts each selected record done or failed
by its own outcome, independently of the other records — concretely, one
injected collaborator failure among five candidates still enriches the other
four.  Publish: the per-record body is entirely inside `try`, so for every
environment each selected record lands in exactly one of the four counters —
concretely, a failed artifact write on one of two candidates still publishes
the other.  The refuted remainder — store failures outside these guards abort
the batch — is the counterexample. -/
theorem stage_isolation_amended (env : TEnv) (model : String) (limit : Option Nat)
    (dry_run : Bool) (db : DB) (hdb : ∀ s a, env.dbOk s a = true) :
    ((transcribe_batch env model limit dry_run db).2.2 = none ∧
     (dry_run = false →
       (transcribe_batch env model limit dry_run db).2.1.done +
       (transcribe_batch env model limit dry_run db).2.1.failed +
       (transcribe_batch env model limit dry_run db).2.1.skipped =
       (selectTranscribe db limit).length)) ∧
    (∀ (eenv : EnrEnv) (elim : Option Nat) (em : String) (conn : Conn),
      (∀ r ∈ selectEnrich conn.cur elim, enrichRaises eenv em r = false) →
      (enrich_batch eenv elim em false conn).2.2 = none ∧
      (enrich_batch eenv elim em false conn).2.1.done =
        ((selectEnrich conn.cur elim).filter (fun r => enrichOk eenv em r)).length ∧
      (enrich_batch eenv elim em false conn).2.1.failed =
        ((selectEnrich conn.cur elim).filter (fun r => !(enrichOk eenv em r))).length ∧
      (enrich_batch eenv elim em false conn).2.1.skipped = 0) ∧
    (∀ (penv : PubEnv) (pforce : Bool) (pst : PubSt),
      (publish penv pforce pst).1.created + (publish penv pforce pst).1.updated +
      (publish penv pforce pst).1.skipped + (publish penv pforce pst).1.error =
      (if pforce then get_all_assets pst.conn.cur
       else get_unpublished_assets pst.conn.cur).length) ∧
    ((enrich_batch enrEnvFail3 none "llama3.3:70b" false connEnrich).2.1 =
       { done := 4, failed := 1, skipped := 0 } ∧
     (enrich_batch enrEnvFail3 none "llama3.3:70b" false connEnrich).2.2 = none ∧
     ((enrich_batch enrEnvFail3 none "llama3.3:70b" false connEnrich).1.cur.asset.map
       (fun r => r.summary.isSome)) = [true, true, false, true, true] ∧
     ((enrich_batch enrEnvFail3 none "llama3.3:70b" false connEnrich).1.committed.asset.map
       (fun r => r.summary.isSome)) = [true, true, false, true, true]) ∧
    ((publish pubEnvFailA false (pubSt0 dbPubAB)).1 =
       { created := 1, updated := 0, skipped := 0, error := 1 } ∧
     ((publish pubEnvFailA false (pubSt0 dbPubAB)).2.2.map (fun w => w.1)) =
       ["voice/" ++ asset_B.note_filename]) := by
  refine ⟨?_, ?_, ?_, by decide, by decide⟩
  · simp only [transcribe_batch]
    by_cases hempty : (selectTranscribe db limit).isEmpty = true
    · rw [if_pos hempty]
      refine ⟨rfl, fun _ => ?_⟩
      rw [List.isEmpty_iff.mp hempty]
      rfl
    · rw [if_neg hempty]
      by_cases hdry : dry_run = true
      · rw [if_pos hdry]
        exact ⟨rfl, fun hc => absurd hdry (by rw [hc]; exact Bool.false_ne_true)⟩
      · rw [if_neg hdry]
        have h := transcribeLoop_no_abort env model hdb (selectTranscribe db limit)
          (initTSt db) { done := 0, failed := 0, skipped := 0, total_seconds := 0 }
        exact ⟨h.1, fun _ => by have h2 := h.2; simpa using h2⟩
  · intro eenv elim em conn hall
    exact enrich_batch_counts eenv elim em conn hall
  · intro penv pforce pst
    exact publish_counts penv pforce pst

/-- Witness for C4 (amended) at a concrete input: a two-record transcribe
batch with a reliable store (the enrich, publish and concrete conjuncts of
the conclusion are restated as instantiated). -/
theorem stage_isolation_amended_witness :
    (∀ s a, tEnvOk.dbOk s a = true) ∧
    (((transcribe_batch tEnvOk "m" none false
        { asset := [asset_A, asset_B], action_log := [] }).2.2 = none ∧
      (false = false →
       (transcribe_batch tEnvOk "m" none false
         { asset := [asset_A, asset_B], action_log := [] }).2.1.done +
       (transcribe_batch tEnvOk "m" none false
         { asset := [asset_A, asset_B], action_log := [] }).2.1.failed +
       (transcribe_batch tEnvOk "m" none false
         { asset := [asset_A, asset_B], action_log := [] }).2.1.skipped =
       (selectTranscribe { asset := [asset_A, asset_B], action_log := [] } none).length)) ∧
     (∀ (eenv : EnrEnv) (elim : Option Nat) (em : String) (conn : Conn),
       (∀ r ∈ selectEnrich conn.cur elim, enrichRaises eenv em r = false) →
       (enrich_batch eenv elim em false conn).2.2 = none ∧
       (enrich_batch eenv elim em false conn).2.1.done =
         ((selectEnrich conn.cur elim).filter (fun r => enrichOk eenv em r)).length ∧
       (enrich_batch eenv elim em false conn).2.1.failed =
         ((selectEnrich conn.cur elim).filter (fun r => !(enrichOk eenv em r))).length ∧
       (enrich_batch eenv elim em false conn).2.1.skipped = 0) ∧
     (∀ (penv : PubEnv) (pforce : Bool) (pst : PubSt),
       (publish penv pforce pst).1.created + (publish penv pforce pst).1.updated +
       (publish penv pforce pst).1.skipped + (publish penv pforce pst).1.error =
       (if pforce then get_all_assets pst.conn.cur
        else get_unpublished_assets pst.conn.cur).length) ∧
     ((enrich_batch enrEnvFail3 none "llama3.3:70b" false connEnrich).2.1 =
        { done := 4, failed := 1, skipped := 0 } ∧
      (enrich_batch enrEnvFail3 none "llama3.3:70b" false connEnrich).2.2 = none ∧
      ((enrich_batch enrEnvFail3 none "llama3.3:70b" false connEnrich).1.cur.asset.map
        (fun r => r.summary.isSome)) = [true, true, false, true, true] ∧
      ((enrich_batch enrEnvFail3 none "llama3.3:70b" false connEnrich).1.committed.asset.map
        (fun r => r.summary.isSome)) = [true, true, false, true, true]) ∧
     ((publish pubEnvFailA false (pubSt0 dbPubAB)).1 =
        { created := 1, updated := 0, skipped := 0, error := 1 } ∧
      ((publish pubEnvFailA false (pubSt0 dbPubAB)).2.2.map (fun w => w.1)) =
        ["voice/" ++ asset_B.note_filename])) :=
  ⟨fun _ _ => rfl,
   stage_isolation_amended tEnvOk "m" none false
     { asset := [asset_A, asset_B], action_log := [] } (fun _ _ => rfl)⟩

/-- Environment in which the store rejects exactly the running UPDATE of the
first record; everything else succeeds. -/
def tEnvDbFail : TEnv :=
  { tEnvOk with dbOk := fun s a => !(s == DbStmt.markRunning && a == asset_A.id) }

/-- C4 (counterexample).  The claim fails as stated: with two selected
records, a store write failure on the first record (its running UPDATE, which
sits outside the `try` block) propagates out of the batch loop, and the
remaining record is never processed — no collaborator call, no status change,
nothing counted. -/
theorem stage_isolation_counterexample :
    (transcribe_batch tEnvDbFail "m" none false
      { asset := [asset_A, asset_B], action_log := [] }).2.2 = some "database error" ∧
    (transcribe_batch tEnvDbFail "m" none false
      { asset := [asset_A, asset_B], action_log := [] }).2.1 =
      { done := 0, failed := 0, skipped := 0, total_seconds := 0 } ∧
    (transcribe_batch tEnvDbFail "m" none false
      { asset := [asset_A, asset_B], action_log := [] }).1.calls = [] ∧
    ((transcribe_batch tEnvDbFail "m" none false
      { asset := [asset_A, asset_B], action_log := [] }).1.conn.committed.asset.map
        (fun r => r.transcript_status)) = [.pending, .pending] := by
  decide

/- ### Claims about transaction granularity (C2) -/

/-- Rows matching the id after a status UPDATE carry the new status. -/
theorem setStatus_mem (now id : String) (new : TranscriptStatus) (db : DB) :
    ∀ r ∈ (setStatus now id new db).1.asset, r.id = id → r.transcript_status = new := by
  intro r hr hid
  simp only [setStatus, List.mem_map] at hr
  obtain ⟨a, _, rfl⟩ := hr
  by_cases h : a.id = id
  · simp [h]
  · rw [if_neg h] at hid ⊢
    exact absurd hid h

/-- Rows matching the id after the done UPDATE carry the done status. -/
theorem setDone_mem (now id model lang tpath : String) (db : DB) :
    ∀ r ∈ (setDone now id model lang tpath db).1.asset, r.id = id →
      r.transcript_status = .done := by
  intro r hr hid
  simp only [setDone, List.mem_map] at hr
  obtain ⟨a, _, rfl⟩ := hr
  by_cases h : a.id = id
  · simp [h]
  · rw [if_neg h] at hid ⊢
    exact absurd hid h

/-- C2 (counterexample).  The claim fails as stated: on a successful
transcription the runner commits three times — running, then the done status
mutation alone, then the audit event.  The second committed state shows the
record as done while the action log holds no transcribe event at all; the
event only appears in the third committed state. -/
theorem stage_commit_counterexample :
    (((transcribe_batch tEnvOk "m" none false
        { asset := [asset_A], action_log := [] }).1.commits.getD 1
        { asset := [], action_log := [] }).asset.map (fun r => r.transcript_status)) = [.done] ∧
    ((transcribe_batch tEnvOk "m" none false
        { asset := [asset_A], action_log := [] }).1.commits.getD 1
        { asset := [], action_log := [] }).action_log.length = 0 ∧
    (((transcribe_batch tEnvOk "m" none false
        { asset := [asset_A], action_log := [] }).1.commits.getD 2
        { asset := [], action_log := [] }).action_log.map
        (fun e => (e.command, e.action, e.asset_id))) =
      [("transcribe", "done", some asset_A.id)] := by
  decide

/-- C2 (amended).  On a successful transcription the status mutation and its
audit event are committed in two separate, consecutive transactions — the
running mark first, then the done mutation with the audit log still
untouched, then the audit event — all three before the loop moves to the
next record (the iteration returns without raising). -/
theorem stage_commit_amended (env : TEnv) (model : String) (st : TSt) (counts : TCounts)
    (row : Asset) (res : TResult)
    (hex : env.fileExists row.source_path = true)
    (htr : env.transcribe row.source_path = .ok res)
    (hw1 : env.fsWriteOk ("transcripts/" ++ row.id ++ ".txt") = true)
    (hw2 : env.fsWriteOk ("transcripts/" ++ row.id ++ ".json") = true)
    (hdb : ∀ s, env.dbOk s row.id = true) :
    ∃ d1 d2 d3,
      (processOne env model (st, counts) row).1.commits = st.commits ++ [d1, d2, d3] ∧
      (processOne env model (st, counts) row).2.2 = none ∧
      d1.action_log = st.conn.cur.action_log ∧
      (∀ r ∈ d1.asset, r.id = row.id → r.transcript_status = .running) ∧
      d2.action_log = st.conn.cur.action_log ∧
      (∀ r ∈ d2.asset, r.id = row.id → r.transcript_status = .done) ∧
      d3.asset = d2.asset ∧
      (∃ ev, d3.action_log = st.conn.cur.action_log ++ [ev] ∧
        ev.command = "transcribe" ∧ ev.action = "done" ∧ ev.asset_id = some row.id) := by
  refine ⟨(setStatus env.now row.id .running st.conn.cur).1,
    (setDone env.now row.id model res.language ("transcripts/" ++ row.id ++ ".txt")
      (setStatus env.now row.id .running st.conn.cur).1).1,
    log_action (setDone env.now row.id model res.language ("transcripts/" ++ row.id ++ ".txt")
        (setStatus env.now row.id .running st.conn.cur).1).1
      "transcribe" "done" (some row.id)
      (some [("model", DetailVal.dstr model), ("language", DetailVal.dstr res.language),
             ("speed", DetailVal.dstr (fmt1 (if 0 < env.elapsedFor row.id then
                ratDiv (row.duration_sec.getD 0) (env.elapsedFor row.id) else 0) ++ "x")),
             ("text_length", DetailVal.dint (String.mk (pyStrip res.text.data)).length),
             ("segments", DetailVal.dint res.segments)]),
    ?_, ?_, rfl, setStatus_mem env.now row.id .running st.conn.cur, rfl, ?_, rfl,
    ⟨_, rfl, rfl, rfl, rfl⟩⟩
  · simp [processOne, tryBody, execStmt, commitT, Conn.commit, hex, htr, hw1, hw2, hdb]
  · simp [processOne, tryBody, execStmt, commitT, Conn.commit, hex, htr, hw1, hw2, hdb]
  · intro r hr hid
    exact setDone_mem env.now row.id model res.language ("transcripts/" ++ row.id ++ ".txt")
      (setStatus env.now row.id .running st.conn.cur).1 r hr hid

/-- Witness for C2 (amended) at a concrete input: one successful record with
every oracle succeeding. -/
theorem stage_commit_amended_witness :
    tEnvOk.fileExists asset_A.source_path = true ∧
    tEnvOk.transcribe asset_A.source_path =
      .ok { text := " hello world ", segments := 2, language := "en" } ∧
    tEnvOk.fsWriteOk ("transcripts/" ++ asset_A.id ++ ".txt") = true ∧
    tEnvOk.fsWriteOk ("transcripts/" ++ asset_A.id ++ ".json") = true ∧
    (∀ s, tEnvOk.dbOk s asset_A.id = true) ∧
    (∃ d1 d2 d3,
      (processOne tEnvOk "m"
        (initTSt { asset := [asset_A], action_log := [] },
         ({ done := 0, failed := 0, skipped := 0, total_seconds := 0 } : TCounts))
        asset_A).1.commits =
        (initTSt { asset := [asset_A], action_log := [] }).commits ++ [d1, d2, d3] ∧
      (processOne tEnvOk "m"
        (initTSt { asset := [asset_A], action_log := [] },
         ({ done := 0, failed := 0, skipped := 0, total_seconds := 0 } : TCounts))
        asset_A).2.2 = none ∧
      d1.action_log = (initTSt { asset := [asset_A], action_log := [] }).conn.cur.action_log ∧
      (∀ r ∈ d1.asset, r.id = asset_A.id → r.transcript_status = .running) ∧
      d2.action_log = (initTSt { asset := [asset_A], action_log := [] }).conn.cur.action_log ∧
      (∀ r ∈ d2.asset, r.id = asset_A.id → r.transcript_status = .done) ∧
      d3.asset = d2.asset ∧
      (∃ ev, d3.action_log =
          (initTSt { asset := [asset_A], action_log := [] }).conn.cur.action_log ++ [ev] ∧
        ev.command = "transcribe" ∧ ev.action = "done" ∧ ev.asset_id = some asset_A.id)) :=
  ⟨rfl, rfl, rfl, rfl, fun _ => rfl,
   stage_commit_amended tEnvOk "m" (initTSt { asset := [asset_A], action_log := [] })
     { done := 0, failed := 0, skipped := 0, total_seconds := 0 } asset_A
     { text := " hello world ", segments := 2, language := "en" }
     rfl rfl rfl rfl (fun _ => rfl)⟩

/- ### Claim about forced publishing (C10) -/

/-- One forced publish step never increments the skipped counter: the skip
branch requires not-forced. -/
theorem publishStep_force_skipped (env : PubEnv)
    (acc : PubSt × PubCounts × List (String × String)) (row : Asset) :
    (publishStep env true acc row).2.1.skipped = acc.2.1.skipped := by
  rcases acc with ⟨st, counts, writes⟩
  simp only [publishStep]
  rw [if_neg (fun h => h.2.2 trivial)]
  split
  · split <;> rfl
  · rfl

/-- Fold form over a whole candidate list. -/
theorem publishLoop_force_skipped (env : PubEnv) :
    ∀ (rows : List Asset) (st : PubSt) (counts : PubCounts) (writes : List (String × String)),
    (rows.foldl (publishStep env true) (st, counts, writes)).2.1.skipped = counts.skipped := by
  intro rows
  induction rows with
  | nil => intros; rfl
  | cons r rest ih =>
    intro st counts writes
    rw [List.foldl_cons]
    rcases h : publishStep env true (st, counts, writes) r with ⟨st2, counts2, w2⟩
    have hstep := publishStep_force_skipped env (st, counts, writes) r
    rw [h] at hstep
    rw [ih st2 counts2 w2]
    exact hstep

/-- The store of the C10 concrete run: the record is already published and its
stored fingerprint equals the fingerprint of its current rendering (the note
hash is not itself rendered). -/
def asset_P : Asset :=
  { asset_A_staged with
    note_hash := some (contentHash16 (generate_note_content asset_A_staged)) }

/-- Vault of the C10 concrete run: the artifact exists at the computed path
with the current rendering. -/
def pubStForce : PubSt :=
  { conn := { committed := { asset := [asset_P], action_log := [] },
              cur := { asset := [asset_P], action_log := [] } },
    fs := fun p => if p = "voice/" ++ asset_P.note_filename
      then some (generate_note_content asset_A_staged) else none,
    jsonl := [] }

/-- C10.  Forced publish never skips: for every store and environment a
forced publish reports zero skipped records (first conjunct); concretely,
even when the artifact exists and the stored fingerprint equals the newly
computed one, the forced run rewrites the artifact exactly once and updates
note path, publication time and fingerprint (remaining conjuncts). -/
theorem publish_force_never_skips :
    (∀ (env : PubEnv) (st : PubSt), (publish env true st).1.skipped = 0) ∧
    asset_P.note_hash = some (contentHash16 (generate_note_content asset_P)) ∧
    (publish pubEnvOk true pubStForce).1 =
      { created := 0, updated := 1, skipped := 0, error := 0 } ∧
    (publish pubEnvOk true pubStForce).2.2 =
      [("voice/" ++ asset_P.note_filename, generate_note_content asset_P)] ∧
    ((publish pubEnvOk true pubStForce).2.1.conn.committed.asset.map
      (fun r => (r.note_path, r.published_at, r.note_hash))) =
      [(some ("MemoryAtlas/voice/" ++ asset_P.note_filename), some pubEnvOk.now,
        some (contentHash16 (generate_note_content asset_P)))] := by
  refine ⟨?_, by decide, by decide, by decide, by decide⟩
  intro env st
  simp only [publish]
  rw [publishLoop_force_skipped env]

/- ### Claims about publish fingerprint stability (C1) -/

/-- C1 (counterexample).  The claim fails as stated on the code: after a
first non-forced publish (one write), a second non-forced publish reports the
record neither skipped nor anything else — zero counts — because the
selection keeps only rows with NULL note path; and after modifying a rendered
field (the title), the fingerprint changes yet the next non-forced publish
performs no rewrite at all. -/
theorem publish_fingerprint_counterexample :
    pubRun1.1 = { created := 1, updated := 0, skipped := 0, error := 0 } ∧
    pubRun1.2.2.length = 1 ∧
    pubRun2.1 = { created := 0, updated := 0, skipped := 0, error := 0 } ∧
    pubRun2.2.2 = [] ∧
    contentHash16 (generate_note_content asset_A) ≠
      contentHash16 (generate_note_content asset_A_mod) ∧
    pubRun3.1 = { created := 0, updated := 0, skipped := 0, error := 0 } ∧
    pubRun3.2.2 = [] := by
  decide

/-- C1 (amended).  Publishing a never-published record twice without
modification writes the artifact exactly once, and the second call does not
select the record at all (all four counters zero, no write).  Changing a
rendered field changes the computed fingerprint but triggers no rewrite on
the next non-forced publish, because the record's note path is no longer
NULL; a subsequent forced publish performs exactly one rewrite. -/
theorem publish_fingerprint_amended (r : Asset) (env : PubEnv)
    (hnp : r.note_path = none)
    (hw : env.fsWriteOk ("voice/" ++ r.note_filename) = true) :
    (publish env false (pubSt0 { asset := [r], action_log := [] })).2.2.length = 1 ∧
    (publish env false
      (publish env false (pubSt0 { asset := [r], action_log := [] })).2.1).1 =
      { created := 0, updated := 0, skipped := 0, error := 0 } ∧
    (publish env false
      (publish env false (pubSt0 { asset := [r], action_log := [] })).2.1).2.2 = [] ∧
    contentHash16 (generate_note_content asset_A) ≠
      contentHash16 (generate_note_content asset_A_mod) ∧
    pubRun3.1 = { created := 0, updated := 0, skipped := 0, error := 0 } ∧
    pubRun3.2.2 = [] ∧
    pubRun3f.1 = { created := 0, updated := 1, skipped := 0, error := 0 } ∧
    pubRun3f.2.2.length = 1 := by
  refine ⟨?_, ?_, ?_, by decide⟩
  · simp [publish, publishStep, get_unpublished_assets, sortByRecordedAt, mark_published,
      log_action, write_jsonl, Conn.commit, pubSt0, List.insertionSort, List.orderedInsert,
      List.filter, hnp, hw]
  · simp [publish, publishStep, get_unpublished_assets, sortByRecordedAt, mark_published,
      log_action, write_jsonl, Conn.commit, pubSt0, List.insertionSort, List.orderedInsert,
      List.filter, hnp, hw]
  · simp [publish, publishStep, get_unpublished_assets, sortByRecordedAt, mark_published,
      log_action, write_jsonl, Conn.commit, pubSt0, List.insertionSort, List.orderedInsert,
      List.filter, hnp, hw]

/-- Witness for C1 (amended) at a concrete input: the fresh 30-second record
with a vault that accepts the write. -/
theorem publish_fingerprint_amended_witness :
    asset_A.note_path = none ∧
    pubEnvOk.fsWriteOk ("voice/" ++ asset_A.note_filename) = true ∧
    ((publish pubEnvOk false (pubSt0 { asset := [asset_A], action_log := [] })).2.2.length = 1 ∧
     (publish pubEnvOk false
       (publish pubEnvOk false (pubSt0 { asset := [asset_A], action_log := [] })).2.1).1 =
       { created := 0, updated := 0, skipped := 0, error := 0 } ∧
     (publish pubEnvOk false
       (publish pubEnvOk false (pubSt0 { asset := [asset_A], action_log := [] })).2.1).2.2 = [] ∧
     contentHash16 (generate_note_content asset_A) ≠
       contentHash16 (generate_note_content asset_A_mod) ∧
     pubRun3.1 = { created := 0, updated := 0, skipped := 0, error := 0 } ∧
     pubRun3.2.2 = [] ∧
     pubRun3f.1 = { created := 0, updated := 1, skipped := 0, error := 0 } ∧
     pubRun3f.2.2.length = 1) :=
  ⟨rfl, rfl, publish_fingerprint_amended asset_A pubEnvOk rfl rfl⟩

/- ### Claims about the status state machine (C3) -/

/-- The transitions the transcriber actually performs. -/
def actualTransitions : List (TranscriptStatus × TranscriptStatus) :=
  [(.pending, .running), (.failed, .running), (.running, .done), (.running, .failed),
   (.pending, .skipped), (.failed, .skipped)]

/-- The transition set asserted by the specification. -/
def claimedTransitions : List (TranscriptStatus × TranscriptStatus) :=
  [(.pending, .running), (.running, .done), (.running, .failed), (.failed, .running),
   (.pending, .skipped), (.running, .skipped)]

/-- Statuses currently stored for an id, one entry per matching row. -/
def listStatus (db : DB) (i : String) : List TranscriptStatus :=
  (db.asset.filter (fun r => r.id == i)).map (fun r => r.transcript_status)

/-- Every event emitted by a status UPDATE goes from a currently stored
status of that id to the new status. -/
theorem setStatus_events (now id : String) (new : TranscriptStatus) (db : DB) :
    ∀ t ∈ (setStatus now id new db).2, ∃ s, s ∈ listStatus db id ∧ t = (id, s, new) := by
  intro t ht
  simp only [setStatus, List.mem_map] at ht
  obtain ⟨r, hr, rfl⟩ := ht
  exact ⟨r.transcript_status, List.mem_map_of_mem _ hr, rfl⟩

/-- Every event emitted by the done UPDATE goes from a currently stored
status of that id to done. -/
theorem setDone_events (now id model lang tpath : String) (db : DB) :
    ∀ t ∈ (setDone now id model lang tpath db).2,
      ∃ s, s ∈ listStatus db id ∧ t = (id, s, .done) := by
  intro t ht
  simp only [setDone, List.mem_map] at ht
  obtain ⟨r, hr, rfl⟩ := ht
  exact ⟨r.transcript_status, List.mem_map_of_mem _ hr, rfl⟩

/-- Filtering an id-preserving rewrite commutes with filtering by id. -/
theorem filter_map_id_preserve (f : Asset → Asset) (hid : ∀ r, (f r).id = r.id) (i : String) :
    ∀ l : List Asset, (l.map f).filter (fun r => r.id == i) =
      (l.filter (fun r => r.id == i)).map f := by
  intro l
  induction l with
  | nil => rfl
  | cons a l ih =>
    by_cases h : a.id = i
    · simp only [List.map_cons, List.filter_cons]
      rw [if_pos (by simpa [hid] using h), if_pos (by simpa using h)]
      simp [ih]
    · simp only [List.map_cons, List.filter_cons]
      rw [if_neg (by simpa [hid] using h), if_neg (by simpa using h)]
      exact ih

/-- A status UPDATE on one id leaves the stored statuses of every other id
unchanged. -/
theorem listStatus_setStatus_ne (now id : String) (new : TranscriptStatus) (db : DB)
    (i : String) (h : i ≠ id) :
    listStatus (setStatus now id new db).1 i = listStatus db i := by
  simp only [listStatus, setStatus]
  rw [filter_map_id_preserve _ (fun r => by by_cases hr : r.id = id <;> simp [hr]) i]
  rw [List.map_map]
  refine List.map_congr_left ?_
  intro a ha
  have hai : a.id = i := by simpa using (List.mem_filter.mp ha).2
  have : ¬ a.id = id := by rw [hai]; exact h
  simp [this]

/-- The done UPDATE on one id leaves the stored statuses of every other id
unchanged. -/
theorem listStatus_setDone_ne (now id model lang tpath : String) (db : DB)
    (i : String) (h : i ≠ id) :
    listStatus (setDone now id model lang tpath db).1 i = listStatus db i := by
  simp only [listStatus, setDone]
  rw [filter_map_id_preserve _ (fun r => by by_cases hr : r.id = id <;> simp [hr]) i]
  rw [List.map_map]
  refine List.map_congr_left ?_
  intro a ha
  have hai : a.id = i := by simpa using (List.mem_filter.mp ha).2
  have : ¬ a.id = id := by rw [hai]; exact h
  simp [this]

/-- After a status UPDATE, every stored status of the targeted id is the new
status. -/
theorem listStatus_setStatus_self (now id : String) (new : TranscriptStatus) (db : DB) :
    listStatus (setStatus now id new db).1 id = (listStatus db id).map (fun _ => new) := by
  simp only [listStatus, setStatus]
  rw [filter_map_id_preserve _ (fun r => by by_cases hr : r.id = id <;> simp [hr]) id]
  rw [List.map_map, List.map_map]
  refine List.map_congr_left ?_
  intro a ha
  have hai : a.id = id := by simpa using (List.mem_filter.mp ha).2
  simp [hai]

/-- Audit inserts do not change stored statuses. -/
theorem listStatus_log (db : DB) (c act : String) (aid : Option String)
    (d : Option (List (String × DetailVal))) (i : String) :
    listStatus (log_action db c act aid d) i = listStatus db i := rfl

/-- One loop iteration over a record whose stored statuses are all pending or
failed emits only transitions from the actual transition set, raises nothing,
and leaves the stored statuses of every other id unchanged. -/
theorem processOne_trans_subset (env : TEnv) (model : String) (st : TSt) (counts : TCounts)
    (row : Asset)
    (hdb : ∀ s a, env.dbOk s a = true)
    (hst : ∀ s ∈ listStatus st.conn.cur row.id, s = .pending ∨ s = .failed) :
    (∀ t ∈ (processOne env model (st, counts) row).1.trans,
      t ∈ st.trans ∨ (t.2.1, t.2.2) ∈ actualTransitions) ∧
    (processOne env model (st, counts) row).2.2 = none ∧
    (∀ i, i ≠ row.id →
      listStatus (processOne env model (st, counts) row).1.conn.cur i =
        listStatus st.conn.cur i) := by
  cases hex : env.fileExists row.source_path with
  | false =>
    refine ⟨?_, ?_, ?_⟩
    · intro t ht
      simp [processOne, execStmt, commitT, Conn.commit, hex, hdb] at ht
      rcases ht with h | h
      · exact Or.inl h
      · obtain ⟨s, hs, rfl⟩ := setStatus_events _ _ _ _ t h
        rcases hst s hs with rfl | rfl <;> simp [actualTransitions]
    · simp [processOne, execStmt, commitT, Conn.commit, hex, hdb]
    · intro i hi
      simp only [processOne, execStmt, commitT, hex, hdb, Bool.not_false, if_true]
      exact listStatus_setStatus_ne _ _ _ _ _ hi
  | true =>
    cases htr : env.transcribe row.source_path with
    | error e =>
      refine ⟨?_, ?_, ?_⟩
      · intro t ht
        simp [processOne, tryBody, execStmt, commitT, Conn.commit, hex, htr, hdb] at ht
        rcases ht with h | h | h
        · exact Or.inl h
        · obtain ⟨s, hs, rfl⟩ := setStatus_events _ _ _ _ t h
          rcases hst s hs with rfl | rfl <;> simp [actualTransitions]
        · obtain ⟨s, hs, rfl⟩ := setStatus_events _ _ _ _ t h
          rw [listStatus_setStatus_self] at hs
          obtain ⟨_, _, rfl⟩ := List.mem_map.mp hs
          simp [actualTransitions]
      · simp [processOne, tryBody, execStmt, commitT, Conn.commit, hex, htr, hdb]
      · intro i hi
        simp only [processOne, tryBody, execStmt, commitT, Conn.commit, hex, htr, hdb,
          Bool.not_true, if_true, if_false, Bool.false_eq_true]
        rw [listStatus_log, listStatus_setStatus_ne _ _ _ _ _ hi,
          listStatus_setStatus_ne _ _ _ _ _ hi]
    | ok res =>
      cases hw1 : env.fsWriteOk ("transcripts/" ++ row.id ++ ".txt") with
      | false =>
        refine ⟨?_, ?_, ?_⟩
        · intro t ht
          simp [processOne, tryBody, execStmt, commitT, Conn.commit, hex, htr, hw1, hdb] at ht
          rcases ht with h | h | h
          · exact Or.inl h
          · obtain ⟨s, hs, rfl⟩ := setStatus_events _ _ _ _ t h
            rcases hst s hs with rfl | rfl <;> simp [actualTransitions]
          · obtain ⟨s, hs, rfl⟩ := setStatus_events _ _ _ _ t h
            rw [listStatus_setStatus_self] at hs
            obtain ⟨_, _, rfl⟩ := List.mem_map.mp hs
            simp [actualTransitions]
        · simp [processOne, tryBody, execStmt, commitT, Conn.commit, hex, htr, hw1, hdb]
        · intro i hi
          simp only [processOne, tryBody, execStmt, commitT, Conn.commit, hex, htr, hw1, hdb,
            Bool.not_true, if_true, if_false, Bool.false_eq_true]
          rw [listStatus_log, listStatus_setStatus_ne _ _ _ _ _ hi,
            listStatus_setStatus_ne _ _ _ _ _ hi]
      | true =>
        cases hw2 : env.fsWriteOk ("transcripts/" ++ row.id ++ ".json") with
        | false =>
          refine ⟨?_, ?_, ?_⟩
          · intro t ht
            simp [processOne, tryBody, execStmt, commitT, Conn.commit, hex, htr, hw1, hw2, hdb] at ht
            rcases ht with h | h | h
            · exact Or.inl h
            · obtain ⟨s, hs, rfl⟩ := setStatus_events _ _ _ _ t h
              rcases hst s hs with rfl | rfl <;> simp [actualTransitions]
            · obtain ⟨s, hs, rfl⟩ := setStatus_events _ _ _ _ t h
              rw [listStatus_setStatus_self] at hs
              obtain ⟨_, _, rfl⟩ := List.mem_map.mp hs
              simp [actualTransitions]
          · simp [processOne, tryBody, execStmt, commitT, Conn.commit, hex, htr, hw1, hw2, hdb]
          · intro i hi
            simp only [processOne, tryBody, execStmt, commitT, Conn.commit, hex, htr, hw1, hw2, hdb,
              Bool.not_true, if_true, if_false, Bool.false_eq_true]
            rw [listStatus_log, listStatus_setStatus_ne _ _ _ _ _ hi,
              listStatus_setStatus_ne _ _ _ _ _ hi]
        | true =>
          refine ⟨?_, ?_, ?_⟩
          · intro t ht
            simp [processOne, tryBody, execStmt, commitT, Conn.commit, hex, htr, hw1, hw2, hdb] at ht
            rcases ht with h | h | h
            · exact Or.inl h
            · obtain ⟨s, hs, rfl⟩ := setStatus_events _ _ _ _ t h
              rcases hst s hs with rfl | rfl <;> simp [actualTransitions]
            · obtain ⟨s, hs, rfl⟩ := setDone_events _ _ _ _ _ _ t h
              rw [listStatus_setStatus_self] at hs
              obtain ⟨_, _, rfl⟩ := List.mem_map.mp hs
              simp [actualTransitions]
          · simp [processOne, tryBody, execStmt, commitT, Conn.commit, hex, htr, hw1, hw2, hdb]
          · intro i hi
            simp only [processOne, tryBody, execStmt, commitT, Conn.commit, hex, htr, hw1, hw2, hdb,
              Bool.not_true, if_true, if_false, Bool.false_eq_true]
            rw [listStatus_log, listStatus_setDone_ne _ _ _ _ _ _ _ hi,
              listStatus_setStatus_ne _ _ _ _ _ hi]

/-- With unique ids, filtering the table by a member's id yields that row alone. -/
theorem filter_id_eq_single {l : List Asset} (hnd : (l.map (fun r => r.id)).Nodup)
    {r : Asset} (hr : r ∈ l) : l.filter (fun x => x.id == r.id) = [r] := by
  induction l with
  | nil => cases hr
  | cons a l ih =>
    simp only [List.map_cons, List.nodup_cons] at hnd
    rcases List.mem_cons.mp hr with rfl | hmem
    · rw [List.filter_cons_of_pos (by simp)]
      have hnil : l.filter (fun x => x.id == r.id) = [] := by
        rw [List.filter_eq_nil_iff]
        intro x hx hcx
        exact hnd.1 ((by simpa using hcx : x.id = r.id) ▸ List.mem_map_of_mem _ hx)
      rw [hnil]
    · have hne : a.id ≠ r.id := fun hc => hnd.1 (hc ▸ List.mem_map_of_mem _ hmem)
      rw [List.filter_cons_of_neg (by simpa using hne)]
      exact ih hnd.2 hmem

/-- A selected row belongs to the table and satisfies the WHERE clause. -/
theorem mem_selectTranscribe {db : DB} {limit : Option Nat} {r : Asset}
    (h : r ∈ selectTranscribe db limit) :
    r ∈ db.asset ∧ eligibleForTranscribe r = true := by
  have hs : r ∈ List.insertionSort (fun a b => optRatLe a.duration_sec b.duration_sec = true)
      (db.asset.filter eligibleForTranscribe) := by
    cases limit with
    | none => simpa [selectTranscribe] using h
    | some n =>
      simp only [selectTranscribe] at h
      by_cases hn : n = 0
      · rw [if_pos hn] at h; exact h
      · rw [if_neg hn] at h; exact List.take_subset n _ h
  rw [(List.perm_insertionSort _ _).mem_iff] at hs
  exact List.mem_filter.mp hs

/-- Selection from a table with unique ids has unique ids. -/
theorem selectTranscribe_nodup (db : DB) (limit : Option Nat)
    (hnd : (db.asset.map (fun r => r.id)).Nodup) :
    ((selectTranscribe db limit).map (fun r => r.id)).Nodup := by
  have h1 : ((db.asset.filter eligibleForTranscribe).map (fun r => r.id)).Nodup :=
    List.Nodup.sublist (List.Sublist.map _ (List.filter_sublist _)) hnd
  have h2 : ((List.insertionSort (fun a b => optRatLe a.duration_sec b.duration_sec = true)
      (db.asset.filter eligibleForTranscribe)).map (fun r => r.id)).Nodup :=
    (((List.perm_insertionSort _ _).map _).nodup_iff).mpr h1
  cases limit with
  | none => simpa [selectTranscribe] using h2
  | some n =>
    simp only [selectTranscribe]
    by_cases hn : n = 0
    · rw [if_pos hn]; exact h2
    · rw [if_neg hn]
      exact List.Nodup.sublist (List.Sublist.map _ (List.take_sublist _ _)) h2

/-- Fold form of the per-record transition lemma: from a state whose pending
work all has pending-or-failed statuses and whose prior transitions are in
the actual set, the whole loop emits only actual transitions. -/
theorem transcribeLoop_trans_subset (env : TEnv) (model : String)
    (hdb : ∀ s a, env.dbOk s a = true) :
    ∀ (rows : List Asset) (st : TSt) (counts : TCounts),
    (∀ t ∈ st.trans, (t.2.1, t.2.2) ∈ actualTransitions) →
    (∀ r ∈ rows, ∀ s ∈ listStatus st.conn.cur r.id, s = .pending ∨ s = .failed) →
    ((rows.map (fun r => r.id)).Nodup) →
    ∀ t ∈ (rows.foldl (transcribeLoopStep env model) (st, counts, none)).1.trans,
      (t.2.1, t.2.2) ∈ actualTransitions := by
  intro rows
  induction rows with
  | nil => intro st counts hbase _ _ t ht; exact hbase t ht
  | cons r rest ih =>
    intro st counts hbase hstat hnd t ht
    simp only [List.map_cons, List.nodup_cons] at hnd
    rw [List.foldl_cons] at ht
    have hstep := processOne_trans_subset env model st counts r hdb
      (hstat r (List.mem_cons_self r rest))
    rcases hpo : processOne env model (st, counts) r with ⟨st2, counts2, o⟩
    rw [hpo] at hstep
    obtain ⟨htrans, hnone, hother⟩ := hstep
    cases o with
    | some e => simp at hnone
    | none =>
      have hstepeq : transcribeLoopStep env model (st, counts, none) r =
          (st2, counts2, none) := hpo
      rw [hstepeq] at ht
      refine ih st2 counts2 ?_ ?_ hnd.2 t ht
      · intro t' ht'
        rcases htrans t' ht' with h | h
        · exact hbase t' h
        · exact h
      · intro r' hr' s hs
        have hne : r'.id ≠ r.id := by
          intro hcontra
          exact hnd.1 (hcontra ▸ List.mem_map_of_mem _ hr')
        rw [hother r'.id hne] at hs
        exact hstat r' (List.mem_cons_of_mem _ hr') s hs

/-- An eligible row is pending or failed. -/
theorem eligible_status {r : Asset} (h : eligibleForTranscribe r = true) :
    r.transcript_status = .pending ∨ r.transcript_status = .failed := by
  simp only [eligibleForTranscribe, Bool.and_eq_true, Bool.or_eq_true, beq_iff_eq] at h
  exact h.1

/-- A previously failed record whose transcription fails again. -/
def asset_G : Asset :=
  { asset_A with
    id := "g0000001-0004-4000-8000-000000000004",
    source_path := "/memos/g.m4a", filename := "g.m4a",
    title := some "Retry that breaks", duration_sec := some 50,
    transcript_status := .failed }

/-- A pending record whose source file has vanished. -/
def asset_H : Asset :=
  { asset_A with
    id := "h0000001-0005-4000-8000-000000000005",
    source_path := "/memos/h.m4a", filename := "h.m4a",
    title := some "Vanished memo", duration_sec := some 60 }

/-- Store for the coverage run: a succeeding pending record, a failed record
with a missing file, a failed record whose retry fails, and a pending record
with a missing file. -/
def covDB : DB := { asset := [asset_A, asset_F, asset_G, asset_H], action_log := [] }

/-- Environment for the coverage run: the files of `asset_F` and `asset_H`
are missing and the collaborator raises on `asset_G`. -/
def covEnv : TEnv :=
  { tEnvOk with
    fileExists := fun p => !(p == asset_F.source_path || p == asset_H.source_path),
    transcribe := fun p =>
      if p == asset_G.source_path then .error "boom"
      else .ok { text := "x", segments := 1, language := "en" } }

/-- C3 (counterexample).  The claim fails as stated: a record in status
failed whose source file is missing transitions directly from failed to
skipped — the missing-file check precedes the running mark — and that pair is
not in the claimed transition set. -/
theorem status_transitions_counterexample :
    (asset_F.id, TranscriptStatus.failed, TranscriptStatus.skipped) ∈
      (transcribe_batch covEnv "m" none false covDB).1.trans ∧
    ((TranscriptStatus.failed, TranscriptStatus.skipped) ∈ claimedTransitions → False) := by
  decide

/-- C3 (amended).  With reliable store writes and unique ids, every
transcript-status transition the batch performs lies in the set
{pending→running, failed→running, running→done, running→failed,
pending→skipped, failed→skipped} (first conjunct), and a single concrete run
realises every member of that set (second conjunct). -/
theorem status_transitions_amended (env : TEnv) (model : String) (limit : Option Nat)
    (dry_run : Bool) (db : DB)
    (hdb : ∀ s a, env.dbOk s a = true)
    (hnd : (db.asset.map (fun r => r.id)).Nodup) :
    (∀ t ∈ (transcribe_batch env model limit dry_run db).1.trans,
      (t.2.1, t.2.2) ∈ actualTransitions) ∧
    (∀ p ∈ actualTransitions,
      p ∈ ((transcribe_batch covEnv "m" none false covDB).1.trans.map
        (fun t => (t.2.1, t.2.2)))) := by
  refine ⟨?_, by decide⟩
  simp only [transcribe_batch]
  by_cases hempty : (selectTranscribe db limit).isEmpty = true
  · rw [if_pos hempty]
    intro t ht
    simp [initTSt] at ht
  · rw [if_neg hempty]
    by_cases hdry : dry_run = true
    · rw [if_pos hdry]
      intro t ht
      simp [initTSt] at ht
    · rw [if_neg hdry]
      refine transcribeLoop_trans_subset env model hdb (selectTranscribe db limit)
        (initTSt db) _ ?_ ?_ ?_
      · intro t ht
        simp [initTSt] at ht
      · intro r hr s hs
        obtain ⟨hmem, helig⟩ := mem_selectTranscribe hr
        have hsingle : listStatus (initTSt db).conn.cur r.id = [r.transcript_status] := by
          simp only [initTSt, listStatus]
          rw [filter_id_eq_single hnd hmem]
          rfl
        rw [hsingle] at hs
        rw [List.mem_singleton.mp hs]
        exact eligible_status helig
      · exact selectTranscribe_nodup db limit hnd

/-- Witness for C3 (amended) at a concrete input: the coverage store and
environment, whose ids are unique and whose store always accepts writes. -/
theorem status_transitions_amended_witness :
    (∀ s a, covEnv.dbOk s a = true) ∧
    ((covDB.asset.map (fun r => r.id)).Nodup) ∧
    ((∀ t ∈ (transcribe_batch covEnv "m" none false covDB).1.trans,
        (t.2.1, t.2.2) ∈ actualTransitions) ∧
     (∀ p ∈ actualTransitions,
        p ∈ ((transcribe_batch covEnv "m" none false covDB).1.trans.map
          (fun t => (t.2.1, t.2.2))))) :=
  ⟨fun _ _ => rfl, by decide,
   status_transitions_amended covEnv "m" none false covDB (fun _ _ => rfl) (by decide)⟩
